import Mathlib

/-!
Verification development for the tiscamera streaming core: a shallow
embedding, in Lean 4, of the format-negotiation engine
(`src/gstreamer-1.0/tcamgstbase.cpp`) and of the pipeline manager
(`src/PipelineManager.cpp`), together with theorems settling the
testable properties of the specification.

Modelling conventions:
* machine integers become `Nat`/`Int` (the code never relies on overflow
  in the translated fragments);
* GStreamer caps become finite lists of structures with optional fields;
  list/range-valued width and height fields (which the translated code
  does not handle either, see the `G_TYPE_INT` checks) are outside the
  modelled subspace, a framerate field may hold several fractions;
* GStreamer elements (bayer2rgb, videoconvert, jpegdec, tcamdutils,
  tcamby1xtransform) are external collaborators: their pad-template caps
  are parameters of the model, queried exactly where the code queries the
  element factories;
* the collaborators of PipelineManager (device source, sink, property
  filter) are external; their accept/refuse answers are parameters, and
  the calls the manager makes into them are recorded in an explicit
  action trace so that "performs no side effect" is a statement about the
  trace.
-/

set_option maxHeartbeats 1000000

namespace Tcam

/-! Fourcc codes.  `GST_MAKE_FOURCC` is translated from the GStreamer
macro, used inline by `tcam_gst_is_fourcc_rgb`.  The `FOURCC_*` constants
come from the external `dutils_img` header, which is not part of this
repository; they are modelled as pairwise distinct nonzero opaque codes
(the translated code compares them only for equality, and `0` is the
reserved invalid encoding). -/

def GST_MAKE_FOURCC (a b c d : Nat) : Nat :=
  a + b * 256 + c * 65536 + d * 16777216

def FOURCC_GBRG8 : Nat := 1
def FOURCC_GRBG8 : Nat := 2
def FOURCC_RGGB8 : Nat := 3
def FOURCC_BGGR8 : Nat := 4

def FOURCC_GBRG10 : Nat := 5
def FOURCC_GRBG10 : Nat := 6
def FOURCC_RGGB10 : Nat := 7
def FOURCC_BGGR10 : Nat := 8

def FOURCC_GBRG10_SPACKED : Nat := 9
def FOURCC_GRBG10_SPACKED : Nat := 10
def FOURCC_RGGB10_SPACKED : Nat := 11
def FOURCC_BGGR10_SPACKED : Nat := 12
def FOURCC_GBRG10_MIPI_PACKED : Nat := 13
def FOURCC_GRBG10_MIPI_PACKED : Nat := 14
def FOURCC_RGGB10_MIPI_PACKED : Nat := 15
def FOURCC_BGGR10_MIPI_PACKED : Nat := 16

def FOURCC_GBRG12 : Nat := 17
def FOURCC_GRBG12 : Nat := 18
def FOURCC_RGGB12 : Nat := 19
def FOURCC_BGGR12 : Nat := 20

def FOURCC_GBRG12_MIPI_PACKED : Nat := 21
def FOURCC_GRBG12_MIPI_PACKED : Nat := 22
def FOURCC_RGGB12_MIPI_PACKED : Nat := 23
def FOURCC_BGGR12_MIPI_PACKED : Nat := 24
def FOURCC_GBRG12_SPACKED : Nat := 25
def FOURCC_GRBG12_SPACKED : Nat := 26
def FOURCC_RGGB12_SPACKED : Nat := 27
def FOURCC_BGGR12_SPACKED : Nat := 28
def FOURCC_GBRG12_PACKED : Nat := 29
def FOURCC_GRBG12_PACKED : Nat := 30
def FOURCC_RGGB12_PACKED : Nat := 31
def FOURCC_BGGR12_PACKED : Nat := 32

def FOURCC_GBRG16 : Nat := 33
def FOURCC_GRBG16 : Nat := 34
def FOURCC_RGGB16 : Nat := 35
def FOURCC_BGGR16 : Nat := 36

def FOURCC_YUY2 : Nat := 37
def FOURCC_UYVY : Nat := 38
def FOURCC_IYU1 : Nat := 39
def FOURCC_IYU2 : Nat := 40
def FOURCC_Y411 : Nat := 41
def FOURCC_NV12 : Nat := 42

def FOURCC_MJPG : Nat := 43
def FOURCC_Y800 : Nat := 44
def FOURCC_Y16 : Nat := 45

def FOURCC_BGR24 : Nat := 46
def FOURCC_BGRA32 : Nat := 47
def FOURCC_BGRA64 : Nat := 48

def FOURCC_PWL_RG12_MIPI : Nat := 49
def FOURCC_PWL_RG12 : Nat := 50
def FOURCC_PWL_RG16H12 : Nat := 51

def FOURCC_POLARIZATION_MONO8_90_45_135_0 : Nat := 52
def FOURCC_POLARIZATION_MONO16_90_45_135_0 : Nat := 53
def FOURCC_POLARIZATION_MONO12_SPACKED_90_45_135_0 : Nat := 54
def FOURCC_POLARIZATION_MONO12_PACKED_90_45_135_0 : Nat := 55
def FOURCC_POLARIZATION_ADI_PLANAR_MONO8 : Nat := 56
def FOURCC_POLARIZATION_ADI_PLANAR_MONO16 : Nat := 57
def FOURCC_POLARIZATION_ADI_MONO8 : Nat := 58
def FOURCC_POLARIZATION_ADI_MONO16 : Nat := 59
def FOURCC_POLARIZATION_PACKED8 : Nat := 60
def FOURCC_POLARIZATION_PACKED16 : Nat := 61

def FOURCC_POLARIZATION_BG8_90_45_135_0 : Nat := 62
def FOURCC_POLARIZATION_BG16_90_45_135_0 : Nat := 63
def FOURCC_POLARIZATION_BG12_SPACKED_90_45_135_0 : Nat := 64
def FOURCC_POLARIZATION_BG12_PACKED_90_45_135_0 : Nat := 65
def FOURCC_POLARIZATION_PACKED8_BAYER_BG : Nat := 66
def FOURCC_POLARIZATION_PACKED16_BAYER_BG : Nat := 67

/-! Fourcc classification predicates, translated from
`src/gstreamer-1.0/tcamgstbase.cpp` (lines 296-563). -/

def tcam_gst_is_fourcc_bayer (fourcc : Nat) : Bool :=
  fourcc = FOURCC_GBRG8 || fourcc = FOURCC_GRBG8 || fourcc = FOURCC_RGGB8
    || fourcc = FOURCC_BGGR8

def tcam_gst_is_bayer10_fourcc (fourcc : Nat) : Bool :=
  fourcc = FOURCC_GBRG10 || fourcc = FOURCC_GRBG10 || fourcc = FOURCC_RGGB10
    || fourcc = FOURCC_BGGR10

def tcam_gst_is_bayer10_packed_fourcc (fourcc : Nat) : Bool :=
  fourcc = FOURCC_GBRG10_SPACKED || fourcc = FOURCC_GRBG10_SPACKED
    || fourcc = FOURCC_RGGB10_SPACKED || fourcc = FOURCC_BGGR10_SPACKED
    || fourcc = FOURCC_GBRG10_MIPI_PACKED || fourcc = FOURCC_GRBG10_MIPI_PACKED
    || fourcc = FOURCC_RGGB10_MIPI_PACKED || fourcc = FOURCC_BGGR10_MIPI_PACKED

def tcam_gst_is_bayer12_fourcc (fourcc : Nat) : Bool :=
  fourcc = FOURCC_GBRG12 || fourcc = FOURCC_GRBG12 || fourcc = FOURCC_RGGB12
    || fourcc = FOURCC_BGGR12

def tcam_gst_is_bayer12_packed_fourcc (fourcc : Nat) : Bool :=
  fourcc = FOURCC_GBRG12_MIPI_PACKED || fourcc = FOURCC_GRBG12_MIPI_PACKED
    || fourcc = FOURCC_RGGB12_MIPI_PACKED || fourcc = FOURCC_BGGR12_MIPI_PACKED
    || fourcc = FOURCC_GBRG12_SPACKED || fourcc = FOURCC_GRBG12_SPACKED
    || fourcc = FOURCC_RGGB12_SPACKED || fourcc = FOURCC_BGGR12_SPACKED
    || fourcc = FOURCC_GBRG12_PACKED || fourcc = FOURCC_GRBG12_PACKED
    || fourcc = FOURCC_RGGB12_PACKED || fourcc = FOURCC_BGGR12_PACKED

def tcam_gst_is_bayer16_fourcc (fourcc : Nat) : Bool :=
  fourcc = FOURCC_GBRG16 || fourcc = FOURCC_GRBG16 || fourcc = FOURCC_RGGB16
    || fourcc = FOURCC_BGGR16

def tcam_gst_is_fourcc_yuv (fourcc : Nat) : Bool :=
  fourcc = FOURCC_YUY2 || fourcc = FOURCC_UYVY || fourcc = FOURCC_IYU1
    || fourcc = FOURCC_IYU2 || fourcc = FOURCC_Y411 || fourcc = FOURCC_NV12

def tcam_gst_is_fourcc_rgb (fourcc : Nat) : Bool :=
  fourcc = GST_MAKE_FOURCC 82 71 66 120   -- R G B x
    || fourcc = GST_MAKE_FOURCC 120 82 71 66   -- x R G B
    || fourcc = GST_MAKE_FOURCC 66 71 82 120   -- B G R x
    || fourcc = GST_MAKE_FOURCC 120 66 71 82   -- x B G R
    || fourcc = GST_MAKE_FOURCC 82 71 66 65    -- R G B A
    || fourcc = GST_MAKE_FOURCC 65 82 71 66    -- A R G B
    || fourcc = GST_MAKE_FOURCC 66 71 82 65    -- B G R A
    || fourcc = GST_MAKE_FOURCC 65 66 71 82    -- A B G R
    || fourcc = FOURCC_BGR24 || fourcc = FOURCC_BGRA32 || fourcc = FOURCC_BGRA64

def tcam_gst_is_bayerpwl_fourcc (fourcc : Nat) : Bool :=
  fourcc = FOURCC_PWL_RG12_MIPI || fourcc = FOURCC_PWL_RG12
    || fourcc = FOURCC_PWL_RG16H12

def tcam_gst_is_polarized_mono (fourcc : Nat) : Bool :=
  fourcc = FOURCC_POLARIZATION_MONO8_90_45_135_0
    || fourcc = FOURCC_POLARIZATION_MONO16_90_45_135_0
    || fourcc = FOURCC_POLARIZATION_MONO12_SPACKED_90_45_135_0
    || fourcc = FOURCC_POLARIZATION_MONO12_PACKED_90_45_135_0
    || fourcc = FOURCC_POLARIZATION_ADI_PLANAR_MONO8
    || fourcc = FOURCC_POLARIZATION_ADI_PLANAR_MONO16
    || fourcc = FOURCC_POLARIZATION_ADI_MONO8
    || fourcc = FOURCC_POLARIZATION_ADI_MONO16
    || fourcc = FOURCC_POLARIZATION_PACKED8
    || fourcc = FOURCC_POLARIZATION_PACKED16

def tcam_gst_is_polarized_bayer (fourcc : Nat) : Bool :=
  fourcc = FOURCC_POLARIZATION_BG8_90_45_135_0
    || fourcc = FOURCC_POLARIZATION_BG16_90_45_135_0
    || fourcc = FOURCC_POLARIZATION_BG12_SPACKED_90_45_135_0
    || fourcc = FOURCC_POLARIZATION_BG12_PACKED_90_45_135_0
    || fourcc = FOURCC_POLARIZATION_PACKED8_BAYER_BG
    || fourcc = FOURCC_POLARIZATION_PACKED16_BAYER_BG

/-! The preferred-format ranking, translated from `find_preferred_format`
(`tcamgstbase.cpp` lines 723-814).  The C++ function fills a
`std::map<int, uint32_t>` keyed by a rank and returns `map.begin()->second`;
`mapInsert` reproduces the ordered-map insert (sorted by key, overwriting
an existing key), and `rank_of` is the if/else-if chain that assigns a key
to a fourcc (`none` for the final else branch, which only logs). -/

def rank_of (fourcc : Nat) : Option Nat :=
  if tcam_gst_is_fourcc_bayer fourcc then some 0
  else if tcam_gst_is_fourcc_rgb fourcc then some 10
  else if tcam_gst_is_fourcc_yuv fourcc then some 20
  else if fourcc = FOURCC_MJPG then some 30
  else if fourcc = FOURCC_Y800 then some 40
  else if fourcc = FOURCC_Y16 then some 50
  else if tcam_gst_is_bayerpwl_fourcc fourcc then some 60
  else if tcam_gst_is_bayer10_fourcc fourcc || tcam_gst_is_bayer10_packed_fourcc fourcc then some 65
  else if tcam_gst_is_bayer12_fourcc fourcc || tcam_gst_is_bayer12_packed_fourcc fourcc then some 70
  else if tcam_gst_is_bayer16_fourcc fourcc then some 80
  else if tcam_gst_is_polarized_bayer fourcc then some 90
  else if tcam_gst_is_polarized_mono fourcc then some 100
  else none

def mapInsert : List (Nat × Nat) → Nat → Nat → List (Nat × Nat)
  | [], k, v => [(k, v)]
  | (k2, v2) :: rest, k, v =>
    if k < k2 then (k, v) :: (k2, v2) :: rest
    else if k = k2 then (k, v) :: rest
    else (k2, v2) :: mapInsert rest k v

/-- One loop iteration of `find_preferred_format`: ranked fourccs are
inserted under their rank, unranked ones only logged. -/
def fpf_step (m : List (Nat × Nat)) (fourcc : Nat) : List (Nat × Nat) :=
  match rank_of fourcc with
  | some k => mapInsert m k fourcc
  | none => m

def find_preferred_format (vec : List Nat) : Nat :=
  if vec = [] then 0
  else
    match vec.foldl fpf_step [] with
    | [] => 0
    | (_, v) :: _ => v

/-! The caps model.  A `GstCaps` value is a finite disjunction of
structures; a structure has a media-type name and optional fields.  In the
modelled subspace `format`, `width` and `height` hold fixed values when
present (`find_largest_caps` only reads `G_TYPE_INT` width/height and
logs otherwise, so ranges are not translated), while `framerate` may hold
a list of fractions ([] encodes an absent field, a singleton a fixed
fraction).  A missing field is unconstrained under intersection, as in
GStreamer. -/

structure CapsStructure where
  name : String
  format : Option String
  width : Option Int
  height : Option Int
  framerate : List (Int × Int)
deriving DecidableEq, Repr

abbrev Caps := List CapsStructure

/-- Field intersection for single-valued optional fields: a missing field
matches anything; present fields must agree. -/
def fieldMeet {α : Type} [DecidableEq α] : Option α → Option α → Option (Option α)
  | none, b => some b
  | some a, none => some (some a)
  | some a, some b => if a = b then some (some a) else none

/-- Field intersection for the framerate list ([] = absent field). -/
def frameMeet (a b : List (Int × Int)) : Option (List (Int × Int)) :=
  match a, b with
  | [], b => some b
  | a, [] => some a
  | a, b =>
    let i := a.filter (fun x => b.contains x)
    if i = [] then none else some i

/-- Intersection of two caps structures (gst structure intersection on the
modelled subspace): names must be equal, common fields must agree. -/
def structMeet (a b : CapsStructure) : Option CapsStructure :=
  if a.name = b.name then
    match fieldMeet a.format b.format, fieldMeet a.width b.width,
          fieldMeet a.height b.height, frameMeet a.framerate b.framerate with
    | some f, some w, some h, some fr =>
      some { name := a.name, format := f, width := w, height := h, framerate := fr }
    | _, _, _, _ => none
  else none

/-- Translation of `gst_caps_intersect`: all pairwise structure
intersections (gst returns a possibly empty caps object, never null). -/
def capsIntersect : Caps → Caps → Caps
  | [], _ => []
  | s :: rest, b => b.filterMap (structMeet s) ++ capsIntersect rest b

/-- Translation of `gst_caps_can_intersect`. -/
def capsCanIntersect (a b : Caps) : Bool :=
  !(capsIntersect a b).isEmpty

/-- Translation of `gst_caps_change_name` (`tcamgstbase.cpp` line 592). -/
def gst_caps_change_name (caps : Caps) (n : String) : Caps :=
  caps.map (fun s => { s with name := n })

/-- Model of the `gst_structure_remove_field(.., "format")` loops used on
wanted caps before intersecting. -/
def gst_caps_remove_format (caps : Caps) : Caps :=
  caps.map (fun s => { s with format := none })

/-! The fourcc mapping used throughout negotiation.

Modelled from the spec: `tcam_fourcc_from_gst_1_0_caps_string` lives in
`tcamgststrings.cpp`, which is not under `src/`; the spec describes an
encoding id per caps media-type/format pair ("identifier for a pixel data
layout").  The table below fixes that mapping for the encodings exercised
here; unknown pairs map to the invalid encoding 0, which the callers skip
(spec: "an encoding id of zero is never valid and is skipped during
ranking"). -/

def tcam_fourcc_from_gst_caps_string (name fmt : String) : Nat :=
  if name = "video/x-bayer" then
    if fmt = "gbrg" then FOURCC_GBRG8
    else if fmt = "grbg" then FOURCC_GRBG8
    else if fmt = "rggb" then FOURCC_RGGB8
    else if fmt = "bggr" then FOURCC_BGGR8
    else if fmt = "rggb12" then FOURCC_RGGB12
    else if fmt = "rggb16" then FOURCC_RGGB16
    else 0
  else if name = "video/x-raw" then
    if fmt = "RGBx" then GST_MAKE_FOURCC 82 71 66 120
    else if fmt = "BGRx" then GST_MAKE_FOURCC 66 71 82 120
    else if fmt = "GRAY8" then FOURCC_Y800
    else if fmt = "GRAY16_LE" then FOURCC_Y16
    else if fmt = "YUY2" then FOURCC_YUY2
    else 0
  else if name = "image/jpeg" then FOURCC_MJPG
  else 0

/-- Fourcc of one caps structure, as read by `tcam_gst_find_largest_caps`:
`gst_structure_get_string` yields the format when present. -/
def fourcc_of (s : CapsStructure) : Nat :=
  tcam_fourcc_from_gst_caps_string s.name (s.format.getD "")

/-- Sorted insertion used to model the `std::sort` in
`index_format_fourccs` and `index_caps_formats`. -/
def insertSorted {α : Type} (le : α → α → Bool) (x : α) : List α → List α
  | [] => [x]
  | y :: rest => if le x y then x :: y :: rest else y :: insertSorted le x rest

def sortBy {α : Type} (le : α → α → Bool) (l : List α) : List α :=
  l.foldr (insertSorted le) []

/-- Removal of adjacent duplicates, modelling `std::unique` + `erase` on a
sorted vector. -/
def dedupAdj {α : Type} [DecidableEq α] : List α → List α
  | [] => []
  | [x] => [x]
  | x :: y :: rest => if x = y then dedupAdj (y :: rest) else x :: dedupAdj (y :: rest)

/-- Translation of `index_format_fourccs` (`tcamgstbase.cpp` lines
656-711): collect the nonzero fourccs of all structures, sort, dedup. -/
def index_format_fourccs (caps : Caps) : List Nat :=
  let raw := caps.foldr (fun s acc =>
    let f := fourcc_of s
    if f ≠ 0 then f :: acc else acc) []
  dedupAdj (sortBy (fun a b => a ≤ b) raw)

/-! Translation of `tcam_gst_find_largest_caps` (`tcamgstbase.cpp` lines
817-986).  The loop keeps independent running maxima `largest_width`
(strict compare) and `largest_height` (non-strict compare) and remembers
the index of the last structure that improved either; the function then
fixates that structure, taking the framerate nearest to `G_MAXINT`,
i.e. the largest fraction in the list. -/

structure FLAcc where
  index : Nat
  lw : Int
  lh : Int
deriving DecidableEq, Repr

def fl_step (pref : Nat) (acc : FLAcc) (i : Nat) (s : CapsStructure) : FLAcc :=
  if fourcc_of s ≠ pref then acc
  else
    let wStep : Int × Bool := match s.width with
      | some w => if acc.lw < w then (w, true) else (acc.lw, false)
      | none => (acc.lw, false)
    let hStep : Int × Bool := match s.height with
      | some h => if acc.lh ≤ h then (h, true) else (acc.lh, false)
      | none => (acc.lh, false)
    { index := if wStep.2 || hStep.2 then i else acc.index
      lw := wStep.1
      lh := hStep.1 }

def fl_loop (pref : Nat) : List CapsStructure → Nat → FLAcc → FLAcc
  | [], _, acc => acc
  | s :: rest, i, acc => fl_loop pref rest (i + 1) (fl_step pref acc i s)

def find_largest_index (pref : Nat) (caps : Caps) : Nat :=
  (fl_loop pref caps 0 { index := 0, lw := -1, lh := -1 }).index

/-- Fraction comparison by cross multiplication (the framerate fixation
picks the value nearest to `G_MAXINT/1`, i.e. the largest fraction). -/
def fracLt (x y : Int × Int) : Bool :=
  x.1 * y.2 < y.1 * x.2

def maxFraction : List (Int × Int) → Option (Int × Int)
  | [] => none
  | f :: rest => some (rest.foldl (fun best g => if fracLt best g then g else best) f)

/-- Fixation of the selected structure: the framerate list is collapsed to
its largest fraction (`gst_structure_fixate_field_nearest_fraction` with
target `G_MAXINT`); width and height are already fixed in the model. -/
def fixate_structure (s : CapsStructure) : CapsStructure :=
  { s with framerate := match maxFraction s.framerate with
      | some fr => [fr]
      | none => [] }

def tcam_gst_find_largest_caps (incoming : Caps) : Option CapsStructure :=
  let pref := find_preferred_format (index_format_fourccs incoming)
  if incoming = [] then none
  else
    match incoming[find_largest_index pref incoming]? with
    | none => none
    | some s => some (fixate_structure s)

/-! The element environment for `find_input_caps`.  The GStreamer elements
the function probes (tcamdutils, tcamby1xtransform, bayer2rgb,
videoconvert, jpegdec) are external plugins: whether each is registered,
and its sink/src pad-template caps, are inputs of the negotiation, queried
through `gst_element_factory_find`, `gst_element_factory_can_src_any_caps`
/ `can_sink_any_caps` and `get_caps_from_element_name`. -/

structure ElemPads where
  sinkCaps : Caps
  srcCaps : Caps
deriving DecidableEq, Repr

structure GstEnv where
  tcamdutils : Option ElemPads
  tcamby1xtransform : Option ElemPads
  bayer2rgb : Option ElemPads
  videoconvert : Option ElemPads
  jpegdec : Option ElemPads
deriving DecidableEq, Repr

def can_src_any_caps (e : ElemPads) (caps : Caps) : Bool :=
  capsCanIntersect e.srcCaps caps

def can_sink_any_caps (e : ElemPads) (caps : Caps) : Bool :=
  capsCanIntersect e.sinkCaps caps

structure input_caps_required_modules where
  bayertransform : Bool := false
  bayer2rgb : Bool := false
  videoconvert : Bool := false
  jpegdec : Bool := false
  dutils : Bool := false
deriving DecidableEq, Repr

structure input_caps_toggles where
  use_dutils : Bool
  use_by1xtransform : Bool
deriving DecidableEq, Repr

/-- Translation of `tcam_gst_raw_only_has_mono` (`tcamgstbase.cpp` lines
226-293) on the modelled subspace (single-valued format fields). -/
def mono_only_format (f : String) : Bool :=
  f = "GRAY8" || f = "GRAY16_LE" || f = "GRAY16_BE" || f = "GRAY12p"
    || f = "GRAY10p" || f = "GRAY12m" || f = "GRAY10m"

def tcam_gst_raw_only_has_mono (caps : Caps) : Bool :=
  caps.all (fun s =>
    s.name = "video/x-raw" &&
      match s.format with
      | some f => mono_only_format f
      | none => false)

/-- Fixedness of caps in the model: one structure whose framerate field is
absent or a single fraction (all other modelled fields are fixed values). -/
def caps_is_fixed (caps : Caps) : Bool :=
  match caps with
  | [s] => s.framerate.length ≤ 1
  | _ => false

/-- Translation of `index_caps_formats` (`tcamgstbase.cpp` lines
1125-1160): the (name, format) pairs of all structures carrying a format
field, sorted by their "name,format=fmt" string and deduplicated. -/
def index_caps_formats (caps : Caps) : List (String × String) :=
  let raw := caps.foldr (fun s acc =>
    match s.format with
    | some f => (s.name, f) :: acc
    | none => acc) []
  let key := fun (p : String × String) => p.1 ++ ",format=" ++ p.2
  dedupAdj (sortBy (fun a b => key a ≤ key b) raw)

/-- Translation of `create_caps_for_formats` (`tcamgstbase.cpp` lines
1167-1210): requires `rest` fixed, takes its width/height/framerate, and
produces one structure per format of `formats`. -/
def create_caps_for_formats (formats rest : Caps) : Option Caps :=
  if !(caps_is_fixed rest) then none
  else
    match rest with
    | [] => none
    | r :: _ =>
      let fmts := index_caps_formats formats
      if fmts = [] then none
      else some (fmts.map (fun p =>
        { name := p.1, format := some p.2, width := r.width, height := r.height,
          framerate := r.framerate }))

/-- Translation of `find_input_caps_dutils` (`tcamgstbase.cpp` lines
1213-1290).  The function unconditionally sets `requires_videoconvert`
(passed by reference) before anything else. -/
def find_input_caps_dutils (env : GstEnv) (available wanted : Caps) :
    Option (Caps × input_caps_required_modules) :=
  let mods : input_caps_required_modules := { videoconvert := true }
  match env.tcamdutils with
  | none => none
  | some du =>
    if can_src_any_caps du wanted && can_sink_any_caps du available then
      let mods := { mods with dutils := true }
      if !(caps_is_fixed available) then
        if !(wanted.isEmpty) then
          if !(caps_is_fixed wanted) then
            let ret := capsIntersect available wanted
            if ret.isEmpty then some (available, mods) else some (ret, mods)
          else
            match create_caps_for_formats available wanted with
            | none => none
            | some possible =>
              if possible.isEmpty then none
              else some (capsIntersect available possible, mods)
        else
          match tcam_gst_find_largest_caps available with
          | none => none
          | some s => some ([s], mods)
      else some (available, mods)
    else none

/-- The tcamby1xtransform block of `find_input_caps` (`tcamgstbase.cpp`
lines 1338-1436); `none` means the block falls through to the plain
bayer2rgb checks. -/
def by1x_branch (env : GstEnv) (toggles : input_caps_toggles)
    (available wanted : Caps) : Option (Caps × input_caps_required_modules) :=
  if !toggles.use_by1xtransform then none
  else
    match env.tcamby1xtransform with
    | none => none
    | some bt =>
      if can_src_any_caps bt wanted && can_sink_any_caps bt available then
        some (capsIntersect available (gst_caps_change_name wanted "video/x-bayer"),
          { bayertransform := true })
      else
        let sub2 : Option (Caps × input_caps_required_modules) :=
          match env.bayer2rgb with
          | some db =>
            if !(tcam_gst_raw_only_has_mono available)
                && can_src_any_caps db wanted && can_sink_any_caps bt available then
              some (capsIntersect available (gst_caps_change_name wanted "video/x-bayer"),
                { bayertransform := true, bayer2rgb := true })
            else none
          | none => none
        match sub2 with
        | some r => some r
        | none =>
          match env.videoconvert with
          | none => none
          | some cv =>
            let transform_out := bt.srcCaps
            if can_src_any_caps cv wanted && capsCanIntersect cv.sinkCaps transform_out then
              let inter := capsIntersect transform_out wanted
              if !inter.isEmpty then some (inter, {})
              else
                let ret := capsIntersect available bt.sinkCaps
                some (capsIntersect ret (gst_caps_remove_format wanted),
                  { bayertransform := true, videoconvert := true })
            else none

/-- The bayer2rgb block of `find_input_caps` (`tcamgstbase.cpp` lines
1438-1492).  Note that in the first sub-branch `gst_caps_intersect` never
returns null, so the `if (ret)` guard always takes the return. -/
def debayer_branch (env : GstEnv) (available wanted : Caps) :
    Option (Caps × input_caps_required_modules) :=
  match env.bayer2rgb with
  | none => none
  | some db =>
    if can_src_any_caps db wanted && can_sink_any_caps db available then
      some (capsIntersect available (gst_caps_change_name wanted "video/x-bayer"),
        { bayer2rgb := true })
    else
      match env.videoconvert with
      | none => none
      | some cv =>
        if can_src_any_caps cv wanted && can_sink_any_caps db available then
          some (capsIntersect available (gst_caps_change_name wanted "video/x-bayer"),
            { bayer2rgb := true, videoconvert := true })
        else none

/-- The videoconvert block of `find_input_caps` (`tcamgstbase.cpp` lines
1494-1535). -/
def convert_branch (env : GstEnv) (available wanted : Caps) :
    Option (Caps × input_caps_required_modules) :=
  match env.videoconvert with
  | none => none
  | some cv =>
    if can_src_any_caps cv wanted && can_sink_any_caps cv available then
      let inter := capsIntersect available wanted
      if !inter.isEmpty then some (inter, {})
      else
        let ret := capsIntersect available cv.sinkCaps
        some (capsIntersect ret (gst_caps_remove_format wanted),
          { videoconvert := true })
    else none

/-- The jpegdec block of `find_input_caps` (`tcamgstbase.cpp` lines
1537-1564). -/
def jpegdec_branch (env : GstEnv) (available wanted : Caps) :
    Option (Caps × input_caps_required_modules) :=
  match env.jpegdec with
  | none => none
  | some jd =>
    if can_src_any_caps jd wanted && can_sink_any_caps jd available then
      let temp := gst_caps_remove_format (gst_caps_change_name wanted "image/jpeg")
      some (capsIntersect available temp, { jpegdec := true, videoconvert := true })
    else none

/-- Translation of `find_input_caps` (`tcamgstbase.cpp` lines 1308-1576):
empty/null wanted caps fall back to the device caps, then the dutils,
tcamby1xtransform, bayer2rgb, videoconvert and jpegdec strategies are
tried in that order, and only last the raw intersection; `none` models the
null return ("no compatible format"). -/
def find_input_caps (env : GstEnv) (toggles : input_caps_toggles)
    (available : Caps) (wantedIn : Option Caps) :
    Option (Caps × input_caps_required_modules) :=
  let wanted := match wantedIn with
    | none => available
    | some w => if w.isEmpty then available else w
  if toggles.use_dutils && env.tcamdutils.isSome then
    find_input_caps_dutils env available wanted
  else
    match by1x_branch env toggles available wanted with
    | some r => some r
    | none =>
      match debayer_branch env available wanted with
      | some r => some r
      | none =>
        match convert_branch env available wanted with
        | some r => some r
        | none =>
          match jpegdec_branch env available wanted with
          | some r => some r
          | none =>
            let inter := capsIntersect available wanted
            if !inter.isEmpty then some (inter, {}) else none

/-! The PipelineManager model (`src/PipelineManager.cpp`).

State: the `status` field, the negotiated input/output `VideoFormat`s, the
realized `filter_pipeline` and whether the worker thread handle is
joinable.  The collaborators (device source, sink, property filter,
available filters) are external; their accept/refuse answers are the
`PMEnv` parameters, and every call the manager makes into a collaborator
is recorded in an `Action` trace, so "performs no side effect" is the
statement "the trace is empty". -/

inductive TCAM_PIPELINE_STATUS
  | UNDEFINED
  | STOPPED
  | PAUSED
  | PLAYING
  | ERROR
deriving DecidableEq, Repr

structure VideoFormat where
  fourcc : Nat
  width : Nat
  height : Nat
deriving DecidableEq, Repr

inductive FilterType
  | CONVERSION
  | INTERPRET
deriving DecidableEq, Repr

/-- A filter description (`FilterDescription` of the repository): name,
kind, and the input/output fourcc sets. -/
structure FilterDescription where
  fname : String
  ftype : FilterType
  input_fourcc : List Nat
  output_fourcc : List Nat
deriving DecidableEq, Repr

/-- A filter bound to concrete input/output formats, as stored in
`filter_pipeline` after a successful `setVideoFormat(in, out)`. -/
structure BoundFilter where
  desc : FilterDescription
  inFormat : VideoFormat
  outFormat : VideoFormat
deriving DecidableEq, Repr

/-- One observable call into a collaborator or the thread/condition
machinery. -/
inductive Action
  | sourceStatus (s : TCAM_PIPELINE_STATUS)
  | sinkStatus (s : TCAM_PIPELINE_STATUS)
  | filterStatus (fname : String) (s : TCAM_PIPELINE_STATUS)
  | propStatus (s : TCAM_PIPELINE_STATUS)
  | sourceFormat (f : VideoFormat)
  | sinkFormat (f : VideoFormat)
  | filterFormat (fname : String) (fin fout : VideoFormat)
  | propFormat (fin fout : VideoFormat)
  | setBufferCollection
  | notifyAll
  | spawnThread
  | joinThread
deriving DecidableEq, Repr

/-- The collaborators' behaviour: presence of source/sink, which status
and format changes each accepts, the registered filters and the device
fourccs (from `available_input_formats`). -/
structure PMEnv where
  sourcePresent : Bool
  sinkPresent : Bool
  source_accepts_status : TCAM_PIPELINE_STATUS → Bool
  sink_accepts_status : TCAM_PIPELINE_STATUS → Bool
  filter_accepts_status : FilterDescription → TCAM_PIPELINE_STATUS → Bool
  source_accepts_format : VideoFormat → Bool
  sink_accepts_format : VideoFormat → Bool
  filter_accepts_format : FilterDescription → VideoFormat → VideoFormat → Bool
  buffer_collection_ok : Bool
  available_filter : List FilterDescription
  device_fourcc : List Nat

structure PMState where
  status : TCAM_PIPELINE_STATUS
  input_format : VideoFormat
  output_format : VideoFormat
  filter_pipeline : List BoundFilter
  thread_joinable : Bool
deriving DecidableEq, Repr

/-- Result of a manager operation: the boolean outcome, the new state and
the trace of collaborator calls made. -/
structure PMOut where
  ok : Bool
  st : PMState
  tr : List Action
deriving DecidableEq, Repr

/-- Translation of `PipelineManager::set_source_status` (lines 204-219):
no call is made when the source is missing. -/
def set_source_status (env : PMEnv) (st : PMState) (s : TCAM_PIPELINE_STATUS) : PMOut :=
  if env.sourcePresent then
    { ok := env.source_accepts_status s, st := st, tr := [Action.sourceStatus s] }
  else
    { ok := false, st := st, tr := [] }

/-- Translation of `PipelineManager::set_sink_status` (lines 222-241). -/
def set_sink_status (env : PMEnv) (st : PMState) (s : TCAM_PIPELINE_STATUS) : PMOut :=
  if env.sinkPresent then
    { ok := env.sink_accepts_status s, st := st, tr := [Action.sinkStatus s] }
  else
    { ok := false, st := st, tr := [] }

/-- The filter loop of `stop_playing` (lines 495-503): stop each chain
filter in order, returning false at the first refusal. -/
def stop_filters (env : PMEnv) : List BoundFilter → Bool × List Action
  | [] => (true, [])
  | f :: rest =>
    let a := Action.filterStatus f.desc.fname TCAM_PIPELINE_STATUS.STOPPED
    if env.filter_accepts_status f.desc TCAM_PIPELINE_STATUS.STOPPED then
      let r := stop_filters env rest
      (r.1, a :: r.2)
    else
      (false, [a])

/-- Translation of `PipelineManager::stop_playing` (lines 484-515): set
status to STOPPED, notify the condition variable, stop source, filters,
sink and property filter, and join the worker thread — but return `false`
early (before the join) if the source or a filter refuses. -/
def stop_playing (env : PMEnv) (st : PMState) : PMOut :=
  let st1 := { st with status := TCAM_PIPELINE_STATUS.STOPPED }
  let tr0 := [Action.notifyAll]
  let r1 := set_source_status env st1 TCAM_PIPELINE_STATUS.STOPPED
  if !r1.ok then
    { ok := false, st := st1, tr := tr0 ++ r1.tr }
  else
    let fr := stop_filters env st1.filter_pipeline
    if !fr.1 then
      { ok := false, st := st1, tr := tr0 ++ r1.tr ++ fr.2 }
    else
      let r2 := set_sink_status env st1 TCAM_PIPELINE_STATUS.STOPPED
      let tr3 := [Action.propStatus TCAM_PIPELINE_STATUS.STOPPED]
      if st1.thread_joinable then
        { ok := true, st := { st1 with thread_joinable := false },
          tr := tr0 ++ r1.tr ++ fr.2 ++ r2.tr ++ tr3 ++ [Action.joinThread] }
      else
        { ok := true, st := st1, tr := tr0 ++ r1.tr ++ fr.2 ++ r2.tr ++ tr3 }

/-- Translation of `PipelineManager::start_playing` (lines 456-481):
activate sink then source; on refusal, roll back via `stop_playing` and
return false; on success set status PLAYING and spawn the worker. -/
def start_playing (env : PMEnv) (st : PMState) : PMOut :=
  let r1 := set_sink_status env st TCAM_PIPELINE_STATUS.PLAYING
  if !r1.ok then
    let r := stop_playing env st
    { ok := false, st := r.st, tr := r1.tr ++ r.tr }
  else
    let r2 := set_source_status env st TCAM_PIPELINE_STATUS.PLAYING
    if !r2.ok then
      let r := stop_playing env st
      { ok := false, st := r.st, tr := r1.tr ++ r2.tr ++ r.tr }
    else
      { ok := true,
        st := { st with status := TCAM_PIPELINE_STATUS.PLAYING, thread_joinable := true },
        tr := r1.tr ++ r2.tr ++ [Action.propStatus TCAM_PIPELINE_STATUS.PLAYING,
          Action.spawnThread] }

/-- One iteration of the conversion-filter loop in
`create_conversion_pipeline` (lines 311-357).  `create_input_format` is
called with the found device fourcc, or 0, before the validity check, so
an output-compatible filter with no usable device input clobbers the
input format with fourcc 0. -/
def conv_step (env : PMEnv) (acc : PMState × List Action) (f : FilterDescription) :
    PMState × List Action :=
  let st := acc.1
  let tr := acc.2
  if f.ftype = FilterType.CONVERSION then
    if st.output_format.fourcc ∈ f.output_fourcc then
      let found := env.device_fourcc.find? (fun cc => f.input_fourcc.contains cc)
      let st := { st with
        input_format := { st.output_format with fourcc := found.getD 0 } }
      match found with
      | some _ =>
        let tr := tr ++ [Action.filterFormat f.fname st.input_format st.output_format]
        if env.filter_accepts_format f st.input_format st.output_format then
          ({ st with filter_pipeline :=
              st.filter_pipeline ++ [⟨f, st.input_format, st.output_format⟩] }, tr)
        else (st, tr)
      | none => (st, tr)
    else (st, tr)
  else (st, tr)

/-- Translation of `PipelineManager::create_conversion_pipeline` (lines
301-359): it returns true whenever source and sink exist, whether or not
any conversion filter was added. -/
def create_conversion_pipeline (env : PMEnv) (st : PMState) : PMOut :=
  if !(env.sourcePresent && env.sinkPresent) then
    { ok := false, st := st, tr := [] }
  else
    let st0 := { st with
      input_format := { st.output_format with fourcc := st.output_format.fourcc } }
    let r := env.available_filter.foldl (conv_step env) (st0, [])
    { ok := true, st := r.1, tr := r.2 }

/-- Translation of `PipelineManager::create_pipeline` (lines 406-453). -/
def create_pipeline (env : PMEnv) (st : PMState) : PMOut :=
  if !(env.sourcePresent && env.sinkPresent) then
    { ok := false, st := st, tr := [] }
  else
    let c := create_conversion_pipeline env { st with filter_pipeline := [] }
    if !c.ok then
      { ok := false, st := c.st, tr := c.tr }
    else
      let tr1 := c.tr ++ [Action.sourceFormat c.st.input_format]
      if !(env.source_accepts_format c.st.input_format) then
        { ok := false, st := c.st, tr := tr1 }
      else
        let tr2 := tr1 ++ [Action.sinkFormat c.st.output_format]
        if !(env.sink_accepts_format c.st.output_format) then
          { ok := false, st := c.st, tr := tr2 }
        else
          let tr3 := tr2 ++ [Action.setBufferCollection]
          if !env.buffer_collection_ok then
            { ok := false, st := c.st, tr := tr3 }
          else
            { ok := true, st := c.st,
              tr := tr3 ++ [Action.propFormat c.st.output_format c.st.output_format] }

/-- Translation of `PipelineManager::set_status` (lines 68-93).  Note the
result of `start_playing()` is discarded: once `create_pipeline()` has
succeeded, `set_status` returns true even if activation failed. -/
def set_status (env : PMEnv) (st : PMState) (s : TCAM_PIPELINE_STATUS) : PMOut :=
  if st.status = s then
    { ok := true, st := st, tr := [] }
  else
    let st1 := { st with status := s }
    if s = TCAM_PIPELINE_STATUS.PLAYING then
      let c := create_pipeline env st1
      if c.ok then
        let p := start_playing env c.st
        { ok := true, st := p.st, tr := c.tr ++ p.tr }
      else
        { ok := false, st := { c.st with status := TCAM_PIPELINE_STATUS.ERROR }, tr := c.tr }
    else if s = TCAM_PIPELINE_STATUS.STOPPED then
      let r := stop_playing env st1
      { ok := true, st := r.st, tr := r.tr }
    else
      { ok := true, st := st1, tr := [] }

/-- The "any encoding" sentinel test of `add_interpretation_filter` (lines
375-381): the input fourcc set is the single entry 0. -/
def all_formats_marker (f : FilterDescription) : Bool :=
  f.input_fourcc.length = 1 && f.input_fourcc.getD 0 1 = 0

/-- Qualification test of `add_interpretation_filter`: an interpretation
filter whose input set is the sentinel or contains the chain input
fourcc. -/
def interpretation_applies (fmt : VideoFormat) (f : FilterDescription) : Bool :=
  f.ftype = FilterType.INTERPRET
    && (all_formats_marker f || f.input_fourcc.contains fmt.fourcc)

/-- Translation of `PipelineManager::add_interpretation_filter` (lines
362-403): each qualifying interpretation filter is bound with input
format = output format = the chain input format and inserted at
`filter_pipeline.begin()`; the `setVideoFormat` calls made on
non-qualifying filters (line 396, result unused) do not alter the chain
and are omitted. -/
def add_interpretation_filter (avail : List FilterDescription)
    (fmt : VideoFormat) (chain : List BoundFilter) : List BoundFilter :=
  avail.foldl (fun ch f =>
    if interpretation_applies fmt f then ⟨f, fmt, fmt⟩ :: ch else ch) chain

/-! The buffer-dispatch model (`push_image`, lines 518-530, and
`run_pipeline`, lines 575-619).  The queue and the status field are
guarded by one mutex, so producer pushes, worker iterations and status
writes are modelled as atomic events; the condition variable only affects
timing, not which sequences of events are possible.  The ghost fields
`accepted` and `delivered` record the buffers that entered the queue and
the buffers handed to the sink. -/

structure DispatchState where
  status : TCAM_PIPELINE_STATUS
  queue : List Nat
  accepted : List Nat
  delivered : List Nat
deriving DecidableEq, Repr

inductive DispatchEv
  | push (b : Nat)
  | workerStep
  | setStat (s : TCAM_PIPELINE_STATUS)
deriving DecidableEq, Repr

/-- One atomic event: `push b` is `push_image` (dropped silently when the
status is STOPPED, otherwise appended at the back of the queue);
`workerStep` is one iteration of `run_pipeline` (in PLAYING with a
non-empty queue it pops the front buffer and forwards it to the sink,
otherwise the thread keeps waiting or exits); `setStat` is a bare status
write. -/
def dispatchStep (st : DispatchState) : DispatchEv → DispatchState
  | DispatchEv.push b =>
    if st.status = TCAM_PIPELINE_STATUS.STOPPED then st
    else { st with queue := st.queue ++ [b], accepted := st.accepted ++ [b] }
  | DispatchEv.workerStep =>
    if st.status = TCAM_PIPELINE_STATUS.PLAYING then
      match st.queue with
      | [] => st
      | b :: rest => { st with queue := rest, delivered := st.delivered ++ [b] }
    else st
  | DispatchEv.setStat s => { st with status := s }

def dispatchRun (st : DispatchState) (evs : List DispatchEv) : DispatchState :=
  evs.foldl dispatchStep st

def dispatchInit : DispatchState :=
  { status := TCAM_PIPELINE_STATUS.STOPPED, queue := [], accepted := [], delivered := [] }

/-! Concrete instances used by the counterexamples and witnesses below. -/

/-- A device-side caps structure: 8-bit rggb bayer, 640x480 at 30 fps. -/
def bayerDeviceStruct : CapsStructure :=
  { name := "video/x-bayer", format := some "rggb", width := some 640,
    height := some 480, framerate := [(30, 1)] }

/-- An unconstrained bayer structure (as on the bayer2rgb sink pad). -/
def anyBayerStruct : CapsStructure :=
  { name := "video/x-bayer", format := none, width := none, height := none,
    framerate := [] }

/-- A raw RGBx structure (as on the bayer2rgb src pad). -/
def rgbxStruct : CapsStructure :=
  { name := "video/x-raw", format := some "RGBx", width := none, height := none,
    framerate := [] }

/-- An unconstrained raw structure (as on the videoconvert pads). -/
def anyRawStruct : CapsStructure :=
  { name := "video/x-raw", format := none, width := none, height := none,
    framerate := [] }

/-- A raw GRAY8 structure. -/
def gray8Struct : CapsStructure :=
  { name := "video/x-raw", format := some "GRAY8", width := none, height := none,
    framerate := [] }

def bayer2rgbPads : ElemPads := { sinkCaps := [anyBayerStruct], srcCaps := [rgbxStruct] }

def videoconvertPads : ElemPads := { sinkCaps := [anyRawStruct], srcCaps := [anyRawStruct] }

/-- C1 failing input, available side: the device offers bayer rggb only. -/
def c1avail : Caps := [bayerDeviceStruct]

/-- C1 failing input, requested side: the consumer accepts bayer rggb
directly as well as raw RGBx. -/
def c1wanted : Caps :=
  [ { name := "video/x-bayer", format := some "rggb", width := none, height := none,
      framerate := [] },
    rgbxStruct ]

/-- C1 element environment: bayer2rgb and videoconvert registered (their
usual pad templates), the optional tcam plugins absent. -/
def c1env : GstEnv :=
  { tcamdutils := none, tcamby1xtransform := none, bayer2rgb := some bayer2rgbPads,
    videoconvert := some videoconvertPads, jpegdec := none }

def c1toggles : input_caps_toggles := { use_dutils := false, use_by1xtransform := false }

/-- C6 counterexample catalog: two matching bayer entries, the first with
the larger width (200x100), the second with the larger height (100x200). -/
def c6caps : Caps :=
  [ { name := "video/x-bayer", format := some "rggb", width := some 200,
      height := some 100, framerate := [(30, 1)] },
    { name := "video/x-bayer", format := some "rggb", width := some 100,
      height := some 200, framerate := [(15, 1), (60, 1), (30, 1)] } ]

/-- C7 witness environment: no conversion elements registered at all. -/
def c7env : GstEnv :=
  { tcamdutils := none, tcamby1xtransform := none, bayer2rgb := none,
    videoconvert := none, jpegdec := none }

def fmt0 : VideoFormat := { fourcc := FOURCC_RGGB8, width := 640, height := 480 }

/-- A pipeline-manager environment whose sink refuses the PLAYING
transition and whose collaborators accept everything else. -/
def env3 : PMEnv :=
  { sourcePresent := true
    sinkPresent := true
    source_accepts_status := fun _ => true
    sink_accepts_status := fun s => decide (s ≠ TCAM_PIPELINE_STATUS.PLAYING)
    filter_accepts_status := fun _ _ => true
    source_accepts_format := fun _ => true
    sink_accepts_format := fun _ => true
    filter_accepts_format := fun _ _ _ => true
    buffer_collection_ok := true
    available_filter := []
    device_fourcc := [FOURCC_RGGB8] }

/-- A stopped manager state with no worker thread. -/
def st3 : PMState :=
  { status := TCAM_PIPELINE_STATUS.STOPPED, input_format := fmt0,
    output_format := fmt0, filter_pipeline := [], thread_joinable := false }

/-- A pipeline-manager environment whose source refuses the STOPPED
transition. -/
def env4 : PMEnv :=
  { env3 with
    sink_accepts_status := fun _ => true
    source_accepts_status := fun s => decide (s ≠ TCAM_PIPELINE_STATUS.STOPPED) }

/-- A playing manager state whose worker thread is running (joinable). -/
def st4 : PMState :=
  { st3 with status := TCAM_PIPELINE_STATUS.PLAYING, thread_joinable := true }

/-- An all-accepting environment for the stop-playing witness. -/
def env4b : PMEnv := { env4 with source_accepts_status := fun _ => true }

/-- A second playing, joinable state (witness input). -/
def st4b : PMState :=
  { st3 with status := TCAM_PIPELINE_STATUS.PLAYING, thread_joinable := true }

/-- Two interpretation filters carrying the "any encoding" sentinel, in
registry order if1 then if2. -/
def if1 : FilterDescription :=
  { fname := "autoexposure", ftype := FilterType.INTERPRET, input_fourcc := [0],
    output_fourcc := [] }

def if2 : FilterDescription :=
  { fname := "whitebalance", ftype := FilterType.INTERPRET, input_fourcc := [0],
    output_fourcc := [] }

/-! Invariant definitions used by the proofs below. -/

/-- Loop invariant of the `find_preferred_format` fold: the ordered map
holds only ranked fourccs already seen, everything seen and ranked is
dominated by some key of the map, and the map is sorted by key. -/
def FpfInv (m : List (Nat × Nat)) (seen : List Nat) : Prop :=
  (∀ p ∈ m, rank_of p.2 = some p.1 ∧ p.2 ∈ seen) ∧
  (∀ x ∈ seen, ∀ j, rank_of x = some j → ∃ p ∈ m, p.1 ≤ j) ∧
  m.Pairwise (fun a b => a.1 < b.1)

/-- Width/height bounds carried by the largest-caps loop accumulator:
every matching structure already processed has width at most `lw` and
height at most `lh`. -/
def FLBounds (pref : Nat) (full : Caps) (i : Nat) (acc : FLAcc) : Prop :=
  ∀ j, j < i → ∀ s, full[j]? = some s → fourcc_of s = pref →
    (∀ w, s.width = some w → w ≤ acc.lw) ∧ (∀ h, s.height = some h → h ≤ acc.lh)

/-- No matching structure processed so far has triggered an update. -/
def FLVirgin (pref : Nat) (full : Caps) (i : Nat) (acc : FLAcc) : Prop :=
  acc.index = 0 ∧ acc.lw = -1 ∧ acc.lh = -1 ∧
  ∀ j, j < i → ∀ s, full[j]? = some s → fourcc_of s = pref →
    (∀ w, s.width = some w → w ≤ -1) ∧ (∀ h, s.height = some h → h < -1)

/-- The remembered index points at a processed matching structure that
realizes the current width maximum or the current height maximum. -/
def FLHit (pref : Nat) (full : Caps) (i : Nat) (acc : FLAcc) : Prop :=
  ∃ s, full[acc.index]? = some s ∧ fourcc_of s = pref ∧ acc.index < i ∧
    (s.width = some acc.lw ∨ s.height = some acc.lh)

def FLInv (pref : Nat) (full : Caps) (i : Nat) (acc : FLAcc) : Prop :=
  FLBounds pref full i acc ∧ (FLHit pref full i acc ∨ FLVirgin pref full i acc)

/-- The 200x100 entry of `c6caps`. -/
def c6wide : CapsStructure :=
  { name := "video/x-bayer", format := some "rggb", width := some 200,
    height := some 100, framerate := [(30, 1)] }

/-- The 100x200 entry of `c6caps`, fixated to its highest frame rate. -/
def c6tall : CapsStructure :=
  { name := "video/x-bayer", format := some "rggb", width := some 100,
    height := some 200, framerate := [(60, 1)] }



/-! Theorems. -/

/-! Lemmas about the ordered-map insertion of `find_preferred_format`. -/

theorem mem_mapInsert : ∀ (m : List (Nat × Nat)) (k v : Nat) (p : Nat × Nat),
    p ∈ mapInsert m k v → p = (k, v) ∨ p ∈ m
  | [], k, v, p, h => by simpa [mapInsert] using h
  | (k2, v2) :: rest, k, v, p, h => by
    simp only [mapInsert] at h
    split at h
    · rcases List.mem_cons.mp h with h | h
      · exact Or.inl h
      · exact Or.inr h
    · split at h
      · rcases List.mem_cons.mp h with h | h
        · exact Or.inl h
        · exact Or.inr (List.mem_cons_of_mem _ h)
      · rcases List.mem_cons.mp h with h | h
        · exact Or.inr (by simp [h])
        · rcases mem_mapInsert rest k v p h with h2 | h2
          · exact Or.inl h2
          · exact Or.inr (List.mem_cons_of_mem _ h2)

theorem self_mem_mapInsert : ∀ (m : List (Nat × Nat)) (k v : Nat),
    (k, v) ∈ mapInsert m k v
  | [], k, v => by simp [mapInsert]
  | (k2, v2) :: rest, k, v => by
    simp only [mapInsert]
    split
    · exact List.mem_cons_self _ _
    · split
      · exact List.mem_cons_self _ _
      · exact List.mem_cons_of_mem _ (self_mem_mapInsert rest k v)

theorem key_kept_mapInsert : ∀ (m : List (Nat × Nat)) (k v : Nat) (p : Nat × Nat),
    p ∈ m → ∃ q ∈ mapInsert m k v, q.1 = p.1
  | [], _, _, p, h => by simp at h
  | (k2, v2) :: rest, k, v, p, h => by
    simp only [mapInsert]
    rcases List.mem_cons.mp h with h | h
    · split
      · exact ⟨p, by simp [h], rfl⟩
      · split
        · next hnlt heq =>
          refine ⟨(k, v), List.mem_cons_self _ _, ?_⟩
          simp [h, heq]
        · exact ⟨p, by simp [h], rfl⟩
    · split
      · exact ⟨p, by simp [List.mem_cons_of_mem _ h], rfl⟩
      · split
        · exact ⟨p, List.mem_cons_of_mem _ h, rfl⟩
        · obtain ⟨q, hq, hq2⟩ := key_kept_mapInsert rest k v p h
          exact ⟨q, List.mem_cons_of_mem _ hq, hq2⟩

theorem mapInsert_sorted : ∀ (m : List (Nat × Nat)) (k v : Nat),
    m.Pairwise (fun a b => a.1 < b.1) →
    (mapInsert m k v).Pairwise (fun a b => a.1 < b.1)
  | [], k, v, _ => by simp [mapInsert]
  | (k2, v2) :: rest, k, v, h => by
    rcases List.pairwise_cons.mp h with ⟨hhead, htail⟩
    simp only [mapInsert]
    split
    · next hlt =>
      refine List.pairwise_cons.mpr ⟨?_, h⟩
      intro p hp
      rcases List.mem_cons.mp hp with hp | hp
      · simpa [hp] using hlt
      · exact lt_trans hlt (hhead p hp)
    · split
      · next hne heq =>
        refine List.pairwise_cons.mpr ⟨?_, htail⟩
        intro p hp
        rw [heq]
        exact hhead p hp
      · next hne hne2 =>
        refine List.pairwise_cons.mpr ⟨?_, mapInsert_sorted rest k v htail⟩
        intro p hp
        rcases mem_mapInsert rest k v p hp with hp2 | hp2
        · have : k2 < k := by omega
          simpa [hp2] using this
        · exact hhead p hp2

theorem fpf_step_inv {m : List (Nat × Nat)} {seen : List Nat} {x : Nat}
    (h : FpfInv m seen) : FpfInv (fpf_step m x) (seen ++ [x]) := by
  obtain ⟨h1, h2, h3⟩ := h
  unfold fpf_step
  cases hr : rank_of x with
  | none =>
    refine ⟨?_, ?_, h3⟩
    · intro p hp
      obtain ⟨ha, hb⟩ := h1 p hp
      exact ⟨ha, List.mem_append_left _ hb⟩
    · intro y hy j hj
      rcases List.mem_append.mp hy with hy | hy
      · exact h2 y hy j hj
      · simp at hy
        rw [hy] at hj
        rw [hj] at hr
        cases hr
  | some k =>
    refine ⟨?_, ?_, mapInsert_sorted m k x h3⟩
    · intro p hp
      rcases mem_mapInsert m k x p hp with hp2 | hp2
      · rw [hp2]
        exact ⟨hr, List.mem_append_right _ (by simp)⟩
      · obtain ⟨ha, hb⟩ := h1 p hp2
        exact ⟨ha, List.mem_append_left _ hb⟩
    · intro y hy j hj
      rcases List.mem_append.mp hy with hy | hy
      · obtain ⟨p, hp, hple⟩ := h2 y hy j hj
        obtain ⟨q, hq, hqeq⟩ := key_kept_mapInsert m k x p hp
        exact ⟨q, hq, by omega⟩
      · simp at hy
        rw [hy] at hj
        rw [hj] at hr
        injection hr with hr2
        exact ⟨(k, x), self_mem_mapInsert m k x, by omega⟩

theorem fpf_fold_inv : ∀ (l : List Nat) (m : List (Nat × Nat)) (seen : List Nat),
    FpfInv m seen → FpfInv (l.foldl fpf_step m) (seen ++ l)
  | [], m, seen, h => by simpa using h
  | x :: rest, m, seen, h => by
    have h2 := fpf_fold_inv rest (fpf_step m x) (seen ++ [x]) (fpf_step_inv h)
    simpa using h2

/-- Claim C2 (amended part): when at least one reported encoding is
ranked, `find_preferred_format` returns an encoding of the input list
whose rank is minimal among all ranked inputs (the ranking order being the
one of `rank_of`, with 8-bit mono before 16-bit mono). -/
theorem find_preferred_format_picks_min_rank (vec : List Nat)
    (h : ∃ x ∈ vec, (rank_of x).isSome = true) :
    find_preferred_format vec ∈ vec ∧
    ∃ k, rank_of (find_preferred_format vec) = some k ∧
      ∀ x ∈ vec, ∀ j, rank_of x = some j → k ≤ j := by
  obtain ⟨x0, hx0, hr0⟩ := h
  have hne : vec ≠ [] := by
    rintro rfl
    simp at hx0
  have hinv := fpf_fold_inv vec [] [] ⟨by simp, by simp, by simp⟩
  rw [List.nil_append] at hinv
  obtain ⟨h1, h2, h3⟩ := hinv
  obtain ⟨j0, hj0⟩ := Option.isSome_iff_exists.mp hr0
  obtain ⟨p0, hp0m, _⟩ := h2 x0 hx0 j0 hj0
  cases hm : vec.foldl fpf_step [] with
  | nil =>
    rw [hm] at hp0m
    simp at hp0m
  | cons hd tl =>
    obtain ⟨k0, v0⟩ := hd
    have hfpf : find_preferred_format vec = v0 := by
      unfold find_preferred_format
      rw [if_neg hne, hm]
    rw [hm] at h1 h2 h3
    obtain ⟨hrank, hmem⟩ := h1 (k0, v0) (List.mem_cons_self _ _)
    refine ⟨hfpf ▸ hmem, k0, hfpf ▸ hrank, ?_⟩
    intro x hx j hj
    obtain ⟨p, hp, hple⟩ := h2 x hx j hj
    rcases List.mem_cons.mp hp with hp2 | hp2
    · rw [hp2] at hple
      exact hple
    · have := (List.pairwise_cons.mp h3).1 p hp2
      omega

/-- Claim C2 counterexample: with both mono encodings on offer the code
picks 8-bit mono (`FOURCC_Y800`, rank 40) over 16-bit mono (`FOURCC_Y16`,
rank 50), while the claim requires 16-bit mono to be preferred. -/
theorem find_preferred_format_prefers_gray8 :
    find_preferred_format [FOURCC_Y16, FOURCC_Y800] = FOURCC_Y800 ∧
    FOURCC_Y800 ≠ FOURCC_Y16 := by decide

/-- Witness for `find_preferred_format_picks_min_rank` at the input
[MJPEG, 8-bit bayer]. -/
theorem find_preferred_format_picks_min_rank_witness :
    find_preferred_format [FOURCC_MJPG, FOURCC_RGGB8] ∈ [FOURCC_MJPG, FOURCC_RGGB8] ∧
    ∃ k, rank_of (find_preferred_format [FOURCC_MJPG, FOURCC_RGGB8]) = some k ∧
      ∀ x ∈ [FOURCC_MJPG, FOURCC_RGGB8], ∀ j, rank_of x = some j → k ≤ j :=
  find_preferred_format_picks_min_rank [FOURCC_MJPG, FOURCC_RGGB8] (by decide)

/-! Lemmas about the largest-caps selection loop. -/

theorem getElem?_of_drop {α : Type} : ∀ (l : List α) (i : Nat) (s : α) (t : List α),
    l.drop i = s :: t → l[i]? = some s
  | [], i, s, t, h => by simp at h
  | a :: rest, 0, s, t, h => by
    simp only [List.drop_zero] at h
    rw [h]
    simp
  | a :: rest, i + 1, s, t, h => by
    simp only [List.drop_succ_cons] at h
    simpa using getElem?_of_drop rest i s t h

theorem drop_succ_of_drop {α : Type} : ∀ (l : List α) (i : Nat) (s : α) (t : List α),
    l.drop i = s :: t → l.drop (i + 1) = t
  | [], i, s, t, h => by simp at h
  | a :: rest, 0, s, t, h => by
    simp only [List.drop_zero] at h
    rw [h]
    simp
  | a :: rest, i + 1, s, t, h => by
    simp only [List.drop_succ_cons] at h
    simpa using drop_succ_of_drop rest i s t h

/-- Behaviour of one matching `fl_step` iteration: the running maxima only
grow, they dominate the new structure, a triggered update records a
structure realizing one of them, and a non-update leaves everything in
place with the new structure strictly dominated. -/
theorem fl_step_spec (pref : Nat) (acc : FLAcc) (i : Nat) (s : CapsStructure)
    (hm : fourcc_of s = pref) :
    ∃ lw2 lh2 trig, fl_step pref acc i s =
        { index := if trig then i else acc.index, lw := lw2, lh := lh2 } ∧
      acc.lw ≤ lw2 ∧ acc.lh ≤ lh2 ∧
      (∀ w, s.width = some w → w ≤ lw2) ∧
      (∀ h, s.height = some h → h ≤ lh2) ∧
      (trig = true → s.width = some lw2 ∨ s.height = some lh2) ∧
      (trig = false → lw2 = acc.lw ∧ lh2 = acc.lh ∧
        (∀ w, s.width = some w → w ≤ acc.lw) ∧
        (∀ h, s.height = some h → h < acc.lh)) := by
  have hcond : ¬(fourcc_of s ≠ pref) := by simpa using hm
  rcases hw : s.width with _ | w <;> rcases hh : s.height with _ | hv
  · refine ⟨acc.lw, acc.lh, false, ?_, le_refl _, le_refl _, ?_, ?_, by simp, ?_⟩
    · simp [fl_step, hcond, hw, hh]
    · rintro w ⟨⟩
    · rintro h2 ⟨⟩
    · intro _
      refine ⟨rfl, rfl, ?_, ?_⟩
      · rintro w ⟨⟩
      · rintro h2 ⟨⟩
  · by_cases h2 : acc.lh ≤ hv
    · refine ⟨acc.lw, hv, true, ?_, le_refl _, h2, ?_, ?_, ?_, by simp⟩
      · simp [fl_step, hcond, hw, hh, h2]
      · rintro w ⟨⟩
      · intro h3 hh2
        injection hh2 with hh2
        omega
      · intro _
        exact Or.inr rfl
    · refine ⟨acc.lw, acc.lh, false, ?_, le_refl _, le_refl _, ?_, ?_, by simp, ?_⟩
      · simp [fl_step, hcond, hw, hh, h2]
      · rintro w ⟨⟩
      · intro h3 hh2
        injection hh2 with hh2
        omega
      · intro _
        refine ⟨rfl, rfl, ?_, ?_⟩
        · rintro w ⟨⟩
        · intro h3 hh2
          injection hh2 with hh2
          omega
  · by_cases h1 : acc.lw < w
    · refine ⟨w, acc.lh, true, ?_, le_of_lt h1, le_refl _, ?_, ?_, ?_, by simp⟩
      · simp [fl_step, hcond, hw, hh, h1]
      · intro w2 hw2
        injection hw2 with hw2
        omega
      · rintro h3 ⟨⟩
      · intro _
        exact Or.inl rfl
    · refine ⟨acc.lw, acc.lh, false, ?_, le_refl _, le_refl _, ?_, ?_, by simp, ?_⟩
      · simp [fl_step, hcond, hw, hh, h1]
      · intro w2 hw2
        injection hw2 with hw2
        omega
      · rintro h3 ⟨⟩
      · intro _
        refine ⟨rfl, rfl, ?_, ?_⟩
        · intro w2 hw2
          injection hw2 with hw2
          omega
        · rintro h3 ⟨⟩
  · by_cases h1 : acc.lw < w <;> by_cases h2 : acc.lh ≤ hv
    · refine ⟨w, hv, true, ?_, le_of_lt h1, h2, ?_, ?_, ?_, by simp⟩
      · simp [fl_step, hcond, hw, hh, h1, h2]
      · intro w2 hw2
        injection hw2 with hw2
        omega
      · intro h3 hh2
        injection hh2 with hh2
        omega
      · intro _
        exact Or.inl rfl
    · refine ⟨w, acc.lh, true, ?_, le_of_lt h1, le_refl _, ?_, ?_, ?_, by simp⟩
      · simp [fl_step, hcond, hw, hh, h1, h2]
      · intro w2 hw2
        injection hw2 with hw2
        omega
      · intro h3 hh2
        injection hh2 with hh2
        omega
      · intro _
        exact Or.inl rfl
    · refine ⟨acc.lw, hv, true, ?_, le_refl _, h2, ?_, ?_, ?_, by simp⟩
      · simp [fl_step, hcond, hw, hh, h1, h2]
      · intro w2 hw2
        injection hw2 with hw2
        omega
      · intro h3 hh2
        injection hh2 with hh2
        omega
      · intro _
        exact Or.inr rfl
    · refine ⟨acc.lw, acc.lh, false, ?_, le_refl _, le_refl _, ?_, ?_, by simp, ?_⟩
      · simp [fl_step, hcond, hw, hh, h1, h2]
      · intro w2 hw2
        injection hw2 with hw2
        omega
      · intro h3 hh2
        injection hh2 with hh2
        omega
      · intro _
        refine ⟨rfl, rfl, ?_, ?_⟩
        · intro w2 hw2
          injection hw2 with hw2
          omega
        · intro h3 hh2
          injection hh2 with hh2
          omega

theorem fl_step_inv {pref : Nat} {full : Caps} {i : Nat} {acc : FLAcc}
    {s : CapsStructure} (hs : full[i]? = some s) (h : FLInv pref full i acc) :
    FLInv pref full (i + 1) (fl_step pref acc i s) := by
  obtain ⟨hb, hrest⟩ := h
  by_cases hm : fourcc_of s = pref
  case neg =>
    have hstep : fl_step pref acc i s = acc := by
      unfold fl_step
      rw [if_pos hm]
    rw [hstep]
    constructor
    · intro j hj t ht hmt
      rcases Nat.lt_succ_iff_lt_or_eq.mp hj with hj | hj
      · exact hb j hj t ht hmt
      · subst hj
        rw [hs] at ht
        injection ht with ht
        subst ht
        exact absurd hmt hm
    · rcases hrest with hhit | hv
      · obtain ⟨t, h1, h2, h3, h4⟩ := hhit
        exact Or.inl ⟨t, h1, h2, by omega, h4⟩
      · obtain ⟨h1, h2, h3, h4⟩ := hv
        refine Or.inr ⟨h1, h2, h3, ?_⟩
        intro j hj t ht hmt
        rcases Nat.lt_succ_iff_lt_or_eq.mp hj with hj | hj
        · exact h4 j hj t ht hmt
        · subst hj
          rw [hs] at ht
          injection ht with ht
          subst ht
          exact absurd hmt hm
  case pos =>
    obtain ⟨lw2, lh2, trig, heq, hlw, hlh, hbw, hbh, htrig, hntrig⟩ :=
      fl_step_spec pref acc i s hm
    rw [heq]
    constructor
    · intro j hj t ht hmt
      rcases Nat.lt_succ_iff_lt_or_eq.mp hj with hj | hj
      · obtain ⟨b1, b2⟩ := hb j hj t ht hmt
        exact ⟨fun w hw2 => le_trans (b1 w hw2) hlw,
               fun h2 hh2 => le_trans (b2 h2 hh2) hlh⟩
      · subst hj
        rw [hs] at ht
        injection ht with ht
        subst ht
        exact ⟨hbw, hbh⟩
    · cases trig with
      | true =>
        refine Or.inl ⟨s, ?_, hm, by simp, htrig rfl⟩
        simpa using hs
      | false =>
        obtain ⟨hl1, hl2, hnw, hnh⟩ := hntrig rfl
        rcases hrest with hhit | hv
        · obtain ⟨t, h1, h2, h3, h4⟩ := hhit
          refine Or.inl ⟨t, by simpa using h1, h2, by simp; omega, ?_⟩
          simp only [hl1, hl2]
          exact h4
        · obtain ⟨h1, h2, h3, h4⟩ := hv
          refine Or.inr ⟨by simpa using h1, by show lw2 = -1; omega,
            by show lh2 = -1; omega, ?_⟩
          intro j hj t ht hmt
          rcases Nat.lt_succ_iff_lt_or_eq.mp hj with hj | hj
          · exact h4 j hj t ht hmt
          · subst hj
            rw [hs] at ht
            injection ht with ht
            subst ht
            exact ⟨fun w hw2 => by have := hnw w hw2; omega,
                   fun h5 hh2 => by have := hnh h5 hh2; omega⟩

theorem fl_loop_inv (pref : Nat) :
    ∀ (rest : List CapsStructure) (full : Caps) (i : Nat) (acc : FLAcc),
    full.drop i = rest → FLInv pref full i acc →
    FLInv pref full (i + rest.length) (fl_loop pref rest i acc)
  | [], full, i, acc, hdrop, h => by simpa using h
  | s :: rest2, full, i, acc, hdrop, h => by
    have hs : full[i]? = some s := getElem?_of_drop full i s rest2 hdrop
    have hdrop2 : full.drop (i + 1) = rest2 := drop_succ_of_drop full i s rest2 hdrop
    have h2 := fl_loop_inv pref rest2 full (i + 1) (fl_step pref acc i s) hdrop2
      (fl_step_inv hs h)
    have harith : i + 1 + rest2.length = i + (s :: rest2).length := by
      simp
      omega
    rw [harith] at h2
    exact h2

theorem getElem?_lt_length {α : Type} {l : List α} {j : Nat} {s : α}
    (h : l[j]? = some s) : j < l.length := by
  by_contra hge
  rw [List.getElem?_eq_none (by omega)] at h
  cases h

/-- The index selected by the `find_largest_caps` loop points at a
matching structure attaining the maximum width or the maximum height over
all matching structures of the catalog. -/
theorem find_largest_index_attains (pref : Nat) (full : Caps)
    (htrig : ∃ (j : Nat) (s : CapsStructure) (hv : Int), full[j]? = some s ∧
      fourcc_of s = pref ∧ s.height = some hv ∧ -1 ≤ hv) :
    ∃ s, full[find_largest_index pref full]? = some s ∧ fourcc_of s = pref ∧
      ((∃ w, s.width = some w ∧ ∀ (j : Nat) (t : CapsStructure) (w2 : Int),
          full[j]? = some t → fourcc_of t = pref → t.width = some w2 → w2 ≤ w) ∨
       (∃ hv, s.height = some hv ∧ ∀ (j : Nat) (t : CapsStructure) (h2 : Int),
          full[j]? = some t → fourcc_of t = pref → t.height = some h2 → h2 ≤ hv)) := by
  have hinit : FLInv pref full 0 { index := 0, lw := -1, lh := -1 } := by
    constructor
    · intro j hj
      exact absurd hj (Nat.not_lt_zero j)
    · refine Or.inr ⟨rfl, rfl, rfl, ?_⟩
      intro j hj
      exact absurd hj (Nat.not_lt_zero j)
  have hinv := fl_loop_inv pref full full 0 { index := 0, lw := -1, lh := -1 }
    (by simp) hinit
  rw [Nat.zero_add] at hinv
  obtain ⟨hb, hrest⟩ := hinv
  obtain ⟨j0, s0, hv0, hjs0, hm0, hh0, hge0⟩ := htrig
  rcases hrest with hhit | hv
  · obtain ⟨s, h1, h2, _, h4⟩ := hhit
    refine ⟨s, h1, h2, ?_⟩
    rcases h4 with h4 | h4
    · refine Or.inl ⟨_, h4, ?_⟩
      intro j t w2 ht hmt htw
      exact (hb j (getElem?_lt_length ht) t ht hmt).1 w2 htw
    · refine Or.inr ⟨_, h4, ?_⟩
      intro j t h2b ht hmt hth
      exact (hb j (getElem?_lt_length ht) t ht hmt).2 h2b hth
  · obtain ⟨_, _, _, h4⟩ := hv
    have := (h4 j0 (getElem?_lt_length hjs0) s0 hjs0 hm0).2 hv0 hh0
    omega

/-! Lemmas about the framerate fixation. -/

theorem frac_le_trans {p b g : Int × Int} (hp : 0 < p.2) (hb : 0 < b.2)
    (hg : 0 < g.2) (h1 : p.1 * b.2 ≤ b.1 * p.2) (h2 : b.1 * g.2 ≤ g.1 * b.2) :
    p.1 * g.2 ≤ g.1 * p.2 := by nlinarith

theorem maxFraction_fold_spec :
    ∀ (l : List (Int × Int)) (b : Int × Int), 0 < b.2 → (∀ g ∈ l, 0 < g.2) →
    (l.foldl (fun best g => if fracLt best g then g else best) b = b ∨
      l.foldl (fun best g => if fracLt best g then g else best) b ∈ l) ∧
    0 < (l.foldl (fun best g => if fracLt best g then g else best) b).2 ∧
    b.1 * (l.foldl (fun best g => if fracLt best g then g else best) b).2 ≤
      (l.foldl (fun best g => if fracLt best g then g else best) b).1 * b.2 ∧
    ∀ g ∈ l, g.1 * (l.foldl (fun best g => if fracLt best g then g else best) b).2 ≤
      (l.foldl (fun best g => if fracLt best g then g else best) b).1 * g.2
  | [], b, hb, _ => ⟨Or.inl rfl, hb, le_refl _, by intro g hg; cases hg⟩
  | g :: rest, b, hb, hpos => by
    simp only [List.foldl_cons]
    set b2 := if fracLt b g then g else b with hb2
    have hgpos : 0 < g.2 := hpos g (by simp)
    have hb2pos : 0 < b2.2 := by
      rw [hb2]
      split
      · exact hgpos
      · exact hb
    have hrpos : ∀ x ∈ rest, 0 < x.2 := fun x hx => hpos x (by simp [hx])
    obtain ⟨hmem, hpos2, hble, hall⟩ := maxFraction_fold_spec rest b2 hb2pos hrpos
    set r := rest.foldl (fun best g => if fracLt best g then g else best) b2 with hr
    have hbb2 : b.1 * b2.2 ≤ b2.1 * b.2 := by
      rw [hb2]
      split
      · next hlt =>
        unfold fracLt at hlt
        simp only [decide_eq_true_eq] at hlt
        omega
      · exact le_refl _
    have hgb2 : g.1 * b2.2 ≤ b2.1 * g.2 := by
      rw [hb2]
      split
      · exact le_refl _
      · next hlt =>
        unfold fracLt at hlt
        simp only [decide_eq_true_eq] at hlt
        omega
    refine ⟨?_, hpos2, ?_, ?_⟩
    · rcases hmem with h | h
      · rw [h, hb2]
        split
        · exact Or.inr (by simp)
        · exact Or.inl rfl
      · exact Or.inr (by simp [h])
    · exact frac_le_trans hb hb2pos hpos2 hbb2 hble
    · intro x hx
      rcases List.mem_cons.mp hx with hx | hx
      · subst hx
        exact frac_le_trans hgpos hb2pos hpos2 hgb2 hble
      · exact hall x hx

theorem maxFraction_spec (l : List (Int × Int)) (hpos : ∀ g ∈ l, 0 < g.2)
    (fr : Int × Int) (hf : maxFraction l = some fr) :
    fr ∈ l ∧ ∀ g ∈ l, g.1 * fr.2 ≤ fr.1 * g.2 := by
  cases l with
  | nil => cases hf
  | cons f rest =>
    simp only [maxFraction] at hf
    injection hf with hf
    obtain ⟨hmem, _, hble, hall⟩ := maxFraction_fold_spec rest f (hpos f (by simp))
      (fun g hg => hpos g (by simp [hg]))
    rw [hf] at hmem hble hall
    constructor
    · rcases hmem with h | h
      · simp [← h]
      · simp [h]
    · intro g hg
      rcases List.mem_cons.mp hg with hg | hg
      · subst hg
        exact hble
      · exact hall g hg

/-- Claim C6 (amended): with no explicit resolution requested, the entry
the code selects among those sharing the chosen encoding attains the
maximum width or the maximum height of the catalog (the loop tracks the
two maxima independently and keeps the last entry improving either); the
returned caps are that entry fixated to its highest frame rate.  It is
not in general the width-maximal entry with height as tie-break. -/
theorem tcam_gst_find_largest_caps_attains_max (incoming : Caps)
    (htrig : ∃ (j : Nat) (s : CapsStructure) (hv : Int), incoming[j]? = some s ∧
      fourcc_of s = find_preferred_format (index_format_fourccs incoming) ∧
      s.height = some hv ∧ -1 ≤ hv)
    (hfr : ∀ t ∈ incoming, ∀ g ∈ t.framerate, 0 < g.2) :
    ∃ s, incoming[find_largest_index
        (find_preferred_format (index_format_fourccs incoming)) incoming]? = some s ∧
      fourcc_of s = find_preferred_format (index_format_fourccs incoming) ∧
      tcam_gst_find_largest_caps incoming = some (fixate_structure s) ∧
      ((∃ w, s.width = some w ∧ ∀ (j : Nat) (t : CapsStructure) (w2 : Int),
          incoming[j]? = some t →
          fourcc_of t = find_preferred_format (index_format_fourccs incoming) →
          t.width = some w2 → w2 ≤ w) ∨
       (∃ hv, s.height = some hv ∧ ∀ (j : Nat) (t : CapsStructure) (h2 : Int),
          incoming[j]? = some t →
          fourcc_of t = find_preferred_format (index_format_fourccs incoming) →
          t.height = some h2 → h2 ≤ hv)) ∧
      (∀ fr, maxFraction s.framerate = some fr →
        fr ∈ s.framerate ∧ (fixate_structure s).framerate = [fr] ∧
        ∀ g ∈ s.framerate, g.1 * fr.2 ≤ fr.1 * g.2) := by
  obtain ⟨s, hs, hm, hmax⟩ := find_largest_index_attains
    (find_preferred_format (index_format_fourccs incoming)) incoming htrig
  have hne : incoming ≠ [] := by
    obtain ⟨j0, s0, hv0, hjs0, _⟩ := htrig
    intro hempty
    rw [hempty] at hjs0
    simp at hjs0
  have hsmem : s ∈ incoming := by
    have hlt := getElem?_lt_length hs
    have : incoming[find_largest_index
        (find_preferred_format (index_format_fourccs incoming)) incoming] = s := by
      have := List.getElem?_eq_getElem hlt
      rw [this] at hs
      injection hs
    exact this ▸ List.getElem_mem hlt
  refine ⟨s, hs, hm, ?_, hmax, ?_⟩
  · unfold tcam_gst_find_largest_caps
    rw [if_neg hne, hs]
  · intro fr hmf
    obtain ⟨hfm, hall⟩ := maxFraction_spec s.framerate (hfr s hsmem) fr hmf
    refine ⟨hfm, ?_, hall⟩
    simp [fixate_structure, hmf]

/-- Claim C6 counterexample: in a catalog whose matching entries are
200x100 then 100x200 (same encoding), the code selects the 100x200 entry
although 200x100 is the width-maximal one, so the selection is not
"maximize width, tie-break by height". -/
theorem find_largest_caps_ignores_width_priority :
    c6caps[0]? = some c6wide ∧ c6wide.width = some 200 ∧
    tcam_gst_find_largest_caps c6caps = some c6tall ∧ c6tall.width = some 100 := by
  decide

/-- Witness for `tcam_gst_find_largest_caps_attains_max` at the concrete
catalog `c6caps`. -/
theorem tcam_gst_find_largest_caps_attains_max_witness :
    ∃ s, c6caps[find_largest_index
        (find_preferred_format (index_format_fourccs c6caps)) c6caps]? = some s ∧
      fourcc_of s = find_preferred_format (index_format_fourccs c6caps) ∧
      tcam_gst_find_largest_caps c6caps = some (fixate_structure s) ∧
      ((∃ w, s.width = some w ∧ ∀ (j : Nat) (t : CapsStructure) (w2 : Int),
          c6caps[j]? = some t →
          fourcc_of t = find_preferred_format (index_format_fourccs c6caps) →
          t.width = some w2 → w2 ≤ w) ∨
       (∃ hv, s.height = some hv ∧ ∀ (j : Nat) (t : CapsStructure) (h2 : Int),
          c6caps[j]? = some t →
          fourcc_of t = find_preferred_format (index_format_fourccs c6caps) →
          t.height = some h2 → h2 ≤ hv)) ∧
      (∀ fr, maxFraction s.framerate = some fr →
        fr ∈ s.framerate ∧ (fixate_structure s).framerate = [fr] ∧
        ∀ g ∈ s.framerate, g.1 * fr.2 ≤ fr.1 * g.2) :=
  tcam_gst_find_largest_caps_attains_max c6caps
    ⟨0, c6wide, 100, by decide, by decide, by decide, by decide⟩
    (by decide)

/-- Claim C1: evaluation of `find_input_caps` at the failing input.  The
device offers bayer rggb; the consumer accepts bayer rggb directly (and
raw RGBx); their direct intersection is non-empty, so by the claim (and
by the function's own header comment) the zero-cost path should return
that intersection with no modules.  Instead the bayer2rgb branch, tested
before the raw intersection, fires and returns with a required debayer
stage. -/
theorem find_input_caps_skips_zero_cost_path :
    capsCanIntersect c1avail c1wanted = true ∧
    find_input_caps c1env c1toggles c1avail (some c1wanted) =
      some ([bayerDeviceStruct], { bayer2rgb := true }) := by decide

/-- Claim C7: when no bridging strategy applies (the dutils path is off or
absent, every probed element either is absent or fails its src/sink
compatibility checks) and the direct intersection of available and wanted
caps is empty, `find_input_caps` returns null — negotiation fails instead
of succeeding with an empty stage list. -/
theorem find_input_caps_no_strategy_fails
    (env : GstEnv) (toggles : input_caps_toggles) (available wanted : Caps)
    (hwne : wanted.isEmpty = false)
    (hdut : (toggles.use_dutils && env.tcamdutils.isSome) = false)
    (hby : ∀ bt, env.tcamby1xtransform = some bt → toggles.use_by1xtransform = true →
      (can_src_any_caps bt wanted && can_sink_any_caps bt available) = false ∧
      (∀ db, env.bayer2rgb = some db →
        (can_src_any_caps db wanted && can_sink_any_caps bt available) = false) ∧
      (∀ cv, env.videoconvert = some cv →
        (can_src_any_caps cv wanted && capsCanIntersect cv.sinkCaps bt.srcCaps) = false))
    (hdb : ∀ db, env.bayer2rgb = some db →
      (can_src_any_caps db wanted && can_sink_any_caps db available) = false ∧
      (∀ cv, env.videoconvert = some cv →
        (can_src_any_caps cv wanted && can_sink_any_caps db available) = false))
    (hcv : ∀ cv, env.videoconvert = some cv →
      (can_src_any_caps cv wanted && can_sink_any_caps cv available) = false)
    (hjp : ∀ jd, env.jpegdec = some jd →
      (can_src_any_caps jd wanted && can_sink_any_caps jd available) = false)
    (hint : capsIntersect available wanted = []) :
    find_input_caps env toggles available (some wanted) = none := by
  have hby_none : by1x_branch env toggles available wanted = none := by
    unfold by1x_branch
    cases htog : toggles.use_by1xtransform with
    | false => simp
    | true =>
      simp only [Bool.not_true, Bool.false_eq_true, if_false]
      cases hbt : env.tcamby1xtransform with
      | none => rfl
      | some bt =>
        dsimp only
        obtain ⟨g1, g2, g3⟩ := hby bt hbt htog
        rw [g1]
        simp only [Bool.false_eq_true, if_false]
        have hconv : (match env.videoconvert with
            | none => none
            | some cv =>
              if can_src_any_caps cv wanted && capsCanIntersect cv.sinkCaps bt.srcCaps then
                if !(capsIntersect bt.srcCaps wanted).isEmpty then
                  some (capsIntersect bt.srcCaps wanted,
                    ({} : input_caps_required_modules))
                else
                  some (capsIntersect (capsIntersect available bt.sinkCaps)
                      (gst_caps_remove_format wanted),
                    { bayertransform := true, videoconvert := true })
              else none) = (none : Option (Caps × input_caps_required_modules)) := by
          cases hcvo : env.videoconvert with
          | none => rfl
          | some cv =>
            dsimp only
            rw [g3 cv hcvo]
            simp
        cases hdbo : env.bayer2rgb with
        | none =>
          dsimp only
          exact hconv
        | some db =>
          dsimp only
          have hg := g2 db hdbo
          simp only [Bool.and_eq_false_iff] at hg
          rcases hg with hg | hg
          · simp only [hg, Bool.and_false, Bool.false_and, Bool.false_eq_true, if_false]
            exact hconv
          · simp only [hg, Bool.and_false, Bool.false_and, Bool.false_eq_true, if_false]
            exact hconv
  have hdb_none : debayer_branch env available wanted = none := by
    unfold debayer_branch
    cases hdbo : env.bayer2rgb with
    | none => rfl
    | some db =>
      dsimp only
      obtain ⟨g1, g2⟩ := hdb db hdbo
      rw [g1]
      simp only [Bool.false_eq_true, if_false]
      cases hcvo : env.videoconvert with
      | none => rfl
      | some cv =>
        dsimp only
        rw [g2 cv hcvo]
        simp
  have hcv_none : convert_branch env available wanted = none := by
    unfold convert_branch
    cases hcvo : env.videoconvert with
    | none => rfl
    | some cv =>
      dsimp only
      rw [hcv cv hcvo]
      simp
  have hjp_none : jpegdec_branch env available wanted = none := by
    unfold jpegdec_branch
    cases hjdo : env.jpegdec with
    | none => rfl
    | some jd =>
      dsimp only
      rw [hjp jd hjdo]
      simp
  unfold find_input_caps
  simp only [hwne, Bool.false_eq_true, if_false, hdut, hby_none, hdb_none, hcv_none,
    hjp_none, hint]
  simp

/-- Witness for `find_input_caps_no_strategy_fails`: no elements are
registered and the device bayer caps do not intersect the requested
GRAY8 caps. -/
theorem find_input_caps_no_strategy_fails_witness :
    find_input_caps c7env c1toggles [bayerDeviceStruct] (some [gray8Struct]) = none :=
  find_input_caps_no_strategy_fails c7env c1toggles [bayerDeviceStruct] [gray8Struct]
    (by decide) (by decide)
    (fun bt hbt => by simp [c7env] at hbt)
    (fun db hdb => by simp [c7env] at hdb)
    (fun cv hcv => by simp [c7env] at hcv)
    (fun jd hjd => by simp [c7env] at hjd)
    (by decide)

/-! Lemmas about the pipeline-manager state machine. -/

/-- `stop_playing` sets the status field to STOPPED on every path. -/
theorem stop_playing_status (env : PMEnv) (st : PMState) :
    (stop_playing env st).st.status = TCAM_PIPELINE_STATUS.STOPPED := by
  unfold stop_playing
  dsimp only
  split
  · rfl
  · split
    · rfl
    · split
      · rfl
      · rfl

/-- Claim C3 (amended): when `create_pipeline` succeeds but an activation
step fails — the sink refuses the PLAYING transition, or the source does —
`start_playing` rolls back through `stop_playing` (final status STOPPED)
and returns false; but `set_status` discards that result and reports
success to its caller, leaving the manager stopped while returning
true. -/
theorem start_playing_failure_rolls_back (env : PMEnv) (st : PMState)
    (hne : st.status ≠ TCAM_PIPELINE_STATUS.PLAYING)
    (hrefuse : env.sink_accepts_status TCAM_PIPELINE_STATUS.PLAYING = false ∨
      env.source_accepts_status TCAM_PIPELINE_STATUS.PLAYING = false)
    (hcp : (create_pipeline env
      { st with status := TCAM_PIPELINE_STATUS.PLAYING }).ok = true) :
    (start_playing env (create_pipeline env
      { st with status := TCAM_PIPELINE_STATUS.PLAYING }).st).ok = false ∧
    (start_playing env (create_pipeline env
      { st with status := TCAM_PIPELINE_STATUS.PLAYING }).st).st.status =
        TCAM_PIPELINE_STATUS.STOPPED ∧
    (set_status env st TCAM_PIPELINE_STATUS.PLAYING).ok = true ∧
    (set_status env st TCAM_PIPELINE_STATUS.PLAYING).st.status =
        TCAM_PIPELINE_STATUS.STOPPED := by
  have hpresent : (env.sourcePresent && env.sinkPresent) = true := by
    cases hb : (env.sourcePresent && env.sinkPresent) with
    | true => rfl
    | false =>
      unfold create_pipeline at hcp
      rw [hb] at hcp
      simp at hcp
  have hsourcep : env.sourcePresent = true := (Bool.and_eq_true_iff.mp hpresent).1
  have hsinkp : env.sinkPresent = true := (Bool.and_eq_true_iff.mp hpresent).2
  have hsp : ∀ s2 : PMState, (start_playing env s2).ok = false ∧
      (start_playing env s2).st.status = TCAM_PIPELINE_STATUS.STOPPED := by
    intro s2
    cases hs : env.sink_accepts_status TCAM_PIPELINE_STATUS.PLAYING with
    | false =>
      unfold start_playing set_sink_status
      simp [hsinkp, hs, stop_playing_status]
    | true =>
      have hsrc : env.source_accepts_status TCAM_PIPELINE_STATUS.PLAYING = false := by
        rcases hrefuse with h | h
        · rw [hs] at h
          cases h
        · exact h
      unfold start_playing set_sink_status set_source_status
      simp [hsinkp, hsourcep, hs, hsrc, stop_playing_status]
  obtain ⟨hok, hstat⟩ := hsp (create_pipeline env
    { st with status := TCAM_PIPELINE_STATUS.PLAYING }).st
  refine ⟨hok, hstat, ?_, ?_⟩
  · unfold set_status
    simp [hne, hcp]
  · unfold set_status
    simp [hne, hcp, hstat]

/-- Witness for `start_playing_failure_rolls_back` at the concrete
environment whose sink refuses PLAYING. -/
theorem start_playing_failure_rolls_back_witness :
    (start_playing env3 (create_pipeline env3
      { st3 with status := TCAM_PIPELINE_STATUS.PLAYING }).st).ok = false ∧
    (start_playing env3 (create_pipeline env3
      { st3 with status := TCAM_PIPELINE_STATUS.PLAYING }).st).st.status =
        TCAM_PIPELINE_STATUS.STOPPED ∧
    (set_status env3 st3 TCAM_PIPELINE_STATUS.PLAYING).ok = true ∧
    (set_status env3 st3 TCAM_PIPELINE_STATUS.PLAYING).st.status =
        TCAM_PIPELINE_STATUS.STOPPED :=
  start_playing_failure_rolls_back env3 st3 (by decide) (by decide) (by decide)

/-- Claim C3 counterexample: with the sink refusing PLAYING (so that
activation fails and `start_playing` returns false after rolling back),
`set_status(PLAYING)` still returns true — the state-change call does not
report the activation failure to its caller. -/
theorem set_status_true_despite_sink_refusal :
    env3.sink_accepts_status TCAM_PIPELINE_STATUS.PLAYING = false ∧
    (start_playing env3 (create_pipeline env3
      { st3 with status := TCAM_PIPELINE_STATUS.PLAYING }).st).ok = false ∧
    (set_status env3 st3 TCAM_PIPELINE_STATUS.PLAYING).ok = true := by decide

/-- Claim C4 (amended): when `stop_playing` returns true the worker thread
has been joined before return (the handle is no longer joinable, and a
join was performed if the thread was running); the status field is STOPPED
in every case.  The early-failure paths return false without joining. -/
theorem stop_playing_success_joins (env : PMEnv) (st : PMState)
    (h : (stop_playing env st).ok = true) :
    (stop_playing env st).st.thread_joinable = false ∧
    (st.thread_joinable = true → Action.joinThread ∈ (stop_playing env st).tr) ∧
    (stop_playing env st).st.status = TCAM_PIPELINE_STATUS.STOPPED := by
  refine ⟨?_, ?_, stop_playing_status env st⟩
  · unfold stop_playing at h ⊢
    dsimp only at h ⊢
    by_cases h1 : (set_source_status env { st with status := TCAM_PIPELINE_STATUS.STOPPED }
        TCAM_PIPELINE_STATUS.STOPPED).ok = true
    · by_cases h2 : (stop_filters env st.filter_pipeline).1 = true
      · by_cases h3 : st.thread_joinable = true
        · simp only [h1, h2]
          simp [h3]
        · simp only [h1, h2]
          simp [h3]
      · simp [h1, h2] at h
    · simp [h1] at h
  · intro hj
    unfold stop_playing at h ⊢
    dsimp only at h ⊢
    by_cases h1 : (set_source_status env { st with status := TCAM_PIPELINE_STATUS.STOPPED }
        TCAM_PIPELINE_STATUS.STOPPED).ok = true
    · by_cases h2 : (stop_filters env st.filter_pipeline).1 = true
      · simp only [h1, h2]
        simp [hj]
      · simp [h1, h2] at h
    · simp [h1] at h

/-- Witness for `stop_playing_success_joins` in an all-accepting
environment from a playing, joinable state. -/
theorem stop_playing_success_joins_witness :
    (stop_playing env4b st4b).st.thread_joinable = false ∧
    (st4b.thread_joinable = true → Action.joinThread ∈ (stop_playing env4b st4b).tr) ∧
    (stop_playing env4b st4b).st.status = TCAM_PIPELINE_STATUS.STOPPED :=
  stop_playing_success_joins env4b st4b (by decide)

/-- Claim C4 counterexample: when the source refuses the STOPPED
transition, `stop_playing` returns (false) without joining the still
joinable worker thread — no `joinThread` call appears in the trace. -/
theorem stop_playing_no_join_on_source_refusal :
    st4.thread_joinable = true ∧
    (stop_playing env4 st4).ok = false ∧
    Action.joinThread ∉ (stop_playing env4 st4).tr ∧
    (stop_playing env4 st4).st.thread_joinable = true := by decide

/-- Claim C8: a `set_status` call whose target equals the current status
is a no-op: it returns true, leaves the whole state (chain included)
unchanged, and makes no collaborator call at all. -/
theorem set_status_idempotent (env : PMEnv) (st : PMState)
    (s : TCAM_PIPELINE_STATUS) (h : st.status = s) :
    set_status env st s = { ok := true, st := st, tr := [] } := by
  unfold set_status
  rw [if_pos h]

/-- Witness for `set_status_idempotent`: a stopped manager told to stop. -/
theorem set_status_idempotent_witness :
    set_status env3 st3 TCAM_PIPELINE_STATUS.STOPPED =
      { ok := true, st := st3, tr := [] } :=
  set_status_idempotent env3 st3 TCAM_PIPELINE_STATUS.STOPPED (by decide)

/-- Claim C10: for a target other than PLAYING and STOPPED (and different
from the current status), `set_status` only assigns the status field and
returns true: no collaborator call, no chain rebuild, no thread action. -/
theorem set_status_other_targets_only_set_field (env : PMEnv) (st : PMState)
    (s : TCAM_PIPELINE_STATUS) (h1 : s ≠ TCAM_PIPELINE_STATUS.PLAYING)
    (h2 : s ≠ TCAM_PIPELINE_STATUS.STOPPED) (h3 : st.status ≠ s) :
    set_status env st s = { ok := true, st := { st with status := s }, tr := [] } := by
  unfold set_status
  rw [if_neg h3]
  dsimp only
  rw [if_neg h1, if_neg h2]

/-- Witness for `set_status_other_targets_only_set_field` with target
PAUSED. -/
theorem set_status_other_targets_only_set_field_witness :
    set_status env3 st3 TCAM_PIPELINE_STATUS.PAUSED =
      { ok := true, st := { st3 with status := TCAM_PIPELINE_STATUS.PAUSED },
        tr := [] } :=
  set_status_other_targets_only_set_field env3 st3 TCAM_PIPELINE_STATUS.PAUSED
    (by decide) (by decide) (by decide)

/-- Claim C5 (amended): `add_interpretation_filter` prepends, one by one,
every qualifying interpretation filter (sentinel-0 input set or input set
containing the chain input fourcc), each bound with input format equal to
output format; the existing chain is untouched below them and the
qualifying filters end up at the front in reverse registry order. -/
theorem add_interpretation_filter_front (avail : List FilterDescription)
    (fmt : VideoFormat) (chain : List BoundFilter) :
    add_interpretation_filter avail fmt chain =
      ((avail.filter (fun f => interpretation_applies fmt f)).reverse.map
        (fun f => ⟨f, fmt, fmt⟩)) ++ chain := by
  induction avail generalizing chain with
  | nil => simp [add_interpretation_filter]
  | cons f rest ih =>
    unfold add_interpretation_filter at ih ⊢
    rw [List.foldl_cons]
    by_cases h : interpretation_applies fmt f = true
    · rw [if_pos h, ih, List.filter_cons_of_pos (by simpa using h)]
      simp
    · rw [if_neg h, ih, List.filter_cons_of_neg (by simpa using h)]

/-- Claim C5 counterexample: two qualifying interpretation filters in
registry order if1, if2 end up at the chain front in the order if2, if1 —
the reverse of registry order claimed. -/
theorem add_interpretation_filter_reverses_registry_order :
    add_interpretation_filter [if1, if2] fmt0 [] =
      [{ desc := if2, inFormat := fmt0, outFormat := fmt0 },
       { desc := if1, inFormat := fmt0, outFormat := fmt0 }] ∧
    add_interpretation_filter [if1, if2] fmt0 [] ≠
      [{ desc := if1, inFormat := fmt0, outFormat := fmt0 },
       { desc := if2, inFormat := fmt0, outFormat := fmt0 }] := by decide

/-! The FIFO dispatch invariant. -/

theorem dispatch_inv : ∀ (evs : List DispatchEv) (st : DispatchState),
    st.delivered ++ st.queue = st.accepted →
    (dispatchRun st evs).delivered ++ (dispatchRun st evs).queue
      = (dispatchRun st evs).accepted
  | [], st, h => h
  | ev :: rest, st, h => by
    show (dispatchRun (dispatchStep st ev) rest).delivered ++ _ = _
    apply dispatch_inv rest
    cases ev with
    | push b =>
      simp only [dispatchStep]
      split
      · exact h
      · dsimp only
        rw [← List.append_assoc, h]
    | workerStep =>
      simp only [dispatchStep]
      split
      · cases hq : st.queue with
        | nil =>
          dsimp only
          exact h
        | cons b rest2 =>
          dsimp only
          rw [List.append_assoc]
          simp only [List.singleton_append]
          rw [← hq]
          exact h
      · exact h
    | setStat s =>
      simp only [dispatchStep]
      exact h

/-- Claim C9: `push_image` silently drops the buffer exactly when the
status is STOPPED and otherwise appends it at the back of the queue (never
touching the delivered sequence), and along every event sequence the
buffers delivered to the sink are exactly an in-order prefix of the
accepted pushes: the worker delivers in arrival order, never reordering
and never dropping a queued buffer. -/
theorem push_image_fifo :
    (∀ evs : List DispatchEv,
      (dispatchRun dispatchInit evs).delivered ++ (dispatchRun dispatchInit evs).queue
        = (dispatchRun dispatchInit evs).accepted ∧
      ∃ t, (dispatchRun dispatchInit evs).delivered ++ t
        = (dispatchRun dispatchInit evs).accepted) ∧
    (∀ (st : DispatchState) (b : Nat),
      (dispatchStep st (DispatchEv.push b)).queue =
        if st.status = TCAM_PIPELINE_STATUS.STOPPED then st.queue
        else st.queue ++ [b]) ∧
    (∀ (st : DispatchState) (b : Nat),
      (dispatchStep st (DispatchEv.push b)).accepted =
        if st.status = TCAM_PIPELINE_STATUS.STOPPED then st.accepted
        else st.accepted ++ [b]) ∧
    (∀ (st : DispatchState) (b : Nat),
      (dispatchStep st (DispatchEv.push b)).delivered = st.delivered ∧
      (dispatchStep st (DispatchEv.push b)).status = st.status) := by
  refine ⟨?_, ?_, ?_, ?_⟩
  · intro evs
    have h := dispatch_inv evs dispatchInit (by rfl)
    exact ⟨h, (dispatchRun dispatchInit evs).queue, h⟩
  · intro st b
    simp only [dispatchStep]
    split
    · next hc => simp [hc]
    · next hc => simp [hc]
  · intro st b
    simp only [dispatchStep]
    split
    · next hc => simp [hc]
    · next hc => simp [hc]
  · intro st b
    simp only [dispatchStep]
    split
    · exact ⟨rfl, rfl⟩
    · exact ⟨rfl, rfl⟩

end Tcam
